import Mathlib

/-!
Verification of the click classification and attribution pipeline
(click-identifier codec, bot risk scorer, referrer/source classifier,
parameter injection engine) of the stackfluence repository.

Strings are modeled as `List Char` (Python `str`); all table contents are
ASCII, so ASCII-only lowercasing coincides with Python `str.lower`.
Python dictionaries are modeled as ordered association lists with the usual
insert-or-replace update semantics.  External inputs that the source code
receives from libraries (the HMAC-SHA256 digest, the user-agents library's
bot flag) are modeled as function parameters, since the core code only uses
them as opaque deterministic functions.
-/

set_option maxRecDepth 10000
set_option linter.unusedVariables false

/-- Characters of a string literal (helper used to write Python string
literals compactly). -/
def lc (s : String) : List Char := s.data

/-- ASCII lowercasing, `str.lower` for the ASCII strings used throughout. -/
def lowerS (s : List Char) : List Char := s.map Char.toLower

/-- Substring test: does `needle` occur contiguously inside `hay`?
Models Python `needle in hay` and `re.search` of a literal pattern. -/
def hasSubstr (hay needle : List Char) : Bool :=
  match hay with
  | [] => needle.isEmpty
  | c :: t => needle.isPrefixOf (c :: t) || hasSubstr t needle

/-- `str.split(sep)` for a single-character separator: splits at every
occurrence, yielding `[""] ` for the empty string, exactly like Python. -/
def splitOnChar (sep : Char) : List Char → List (List Char)
  | [] => [[]]
  | c :: t =>
    let r := splitOnChar sep t
    if c = sep then [] :: r
    else
      match r with
      | [] => [[c]]
      | h :: rt => (c :: h) :: rt

/-- Split at the first occurrence of `sep`: returns the part before it and,
when `sep` occurs, the part after it (Python `s.split(sep, 1)`). -/
def splitFirst (sep : Char) : List Char → List Char × Option (List Char)
  | [] => ([], none)
  | c :: t =>
    if c = sep then ([], some t)
    else
      let r := splitFirst sep t
      (c :: r.1, r.2)

/-- Split at the first occurrence of the substring `pat`:
`some (before, after)` when `pat` occurs, `none` otherwise. -/
def splitSub (pat : List Char) : List Char → Option (List Char × List Char)
  | [] => if pat = [] then some ([], []) else none
  | c :: t =>
    if pat.isPrefixOf (c :: t) then some ([], (c :: t).drop pat.length)
    else (splitSub pat t).map (fun r => (c :: r.1, r.2))

/-- Python `s.lstrip(chars)`: drop leading characters belonging to the
character set `cs` (note: a character SET, not a literal prefix). -/
def lstripSet (cs : List Char) (s : List Char) : List Char :=
  s.dropWhile (fun c => cs.contains c)

/-- Python `s.strip()` restricted to the common ASCII whitespace. -/
def stripWs (s : List Char) : List Char :=
  ((s.dropWhile Char.isWhitespace).reverse.dropWhile Char.isWhitespace).reverse

/-- Parse a nonempty all-digit string as a natural number. -/
def parseNatDigits (s : List Char) : Option Nat :=
  if s ≠ [] ∧ s.all Char.isDigit then
    some (s.foldl (fun a c => 10 * a + (c.toNat - 48)) 0)
  else none

/-- Python `int(s)` on the strings relevant here: an optional sign followed
by one or more decimal digits.  (Python additionally tolerates surrounding
whitespace and digit-group underscores; no claim depends on those.) -/
def parseInt (s : List Char) : Option Int :=
  match s with
  | [] => none
  | c :: rest =>
    if c = '-' then (parseNatDigits rest).map (fun n => -(n : Int))
    else if c = '+' then (parseNatDigits rest).map (fun n => (n : Int))
    else (parseNatDigits (c :: rest)).map (fun n => (n : Int))

/-- Little-endian decimal digits of a positive number, with fuel. -/
def natDigitsRev : Nat → Nat → List Nat
  | 0, _ => []
  | _ + 1, 0 => []
  | fuel + 1, n + 1 => ((n + 1) % 10) :: natDigitsRev fuel ((n + 1) / 10)

/-- The character of a decimal digit. -/
def digitChar (d : Nat) : Char := Char.ofNat (48 + d)

/-- Decimal representation of a natural number, `str(n)`. -/
def printNat (n : Nat) : List Char :=
  if n = 0 then ['0'] else ((natDigitsRev n n).map digitChar).reverse

/-- Decimal representation of an integer, Python `str(i)` / f-string
interpolation of an int. -/
def printInt (i : Int) : List Char :=
  if i < 0 then '-' :: printNat i.natAbs else printNat i.toNat

/-- Value of a little-endian digit list. -/
def digitsVal : List Nat → Nat
  | [] => 0
  | d :: ds => d + 10 * digitsVal ds

theorem natDigitsRev_val : ∀ fuel n, n ≤ fuel → digitsVal (natDigitsRev fuel n) = n := by
  intro fuel
  induction fuel with
  | zero => intro n hn; interval_cases n; rfl
  | succ f ih =>
    intro n hn
    match n with
    | 0 => rfl
    | m + 1 =>
      have hdiv : (m + 1) / 10 ≤ f := by
        have h1 : (m + 1) / 10 < m + 1 := Nat.div_lt_self (Nat.succ_pos m) (by omega)
        omega
      show digitsVal (((m + 1) % 10) :: natDigitsRev f ((m + 1) / 10)) = m + 1
      have := ih ((m + 1) / 10) hdiv
      simp only [digitsVal, this]
      omega

theorem natDigitsRev_lt : ∀ fuel n d, d ∈ natDigitsRev fuel n → d < 10 := by
  intro fuel
  induction fuel with
  | zero => intro n d hd; simp [natDigitsRev] at hd
  | succ f ih =>
    intro n d hd
    match n with
    | 0 => simp [natDigitsRev] at hd
    | m + 1 =>
      simp only [natDigitsRev, List.mem_cons] at hd
      rcases hd with h | h
      · omega
      · exact ih _ _ h

theorem natDigitsRev_ne_nil (fuel n : Nat) (h0 : 0 < n) (hle : n ≤ fuel) :
    natDigitsRev fuel n ≠ [] := by
  match fuel, n with
  | 0, n => omega
  | f + 1, m + 1 => simp [natDigitsRev]

theorem digitChar_toNat (d : Nat) (h : d < 10) : (digitChar d).toNat = 48 + d := by
  interval_cases d <;> rfl

theorem digitChar_isDigit (d : Nat) (h : d < 10) : (digitChar d).isDigit = true := by
  interval_cases d <;> rfl

theorem foldl_digits (ds : List Nat) (hd : ∀ d ∈ ds, d < 10) : ∀ a : Nat,
    List.foldl (fun x c => 10 * x + (c.toNat - 48)) a ((ds.map digitChar).reverse)
      = a * 10 ^ ds.length + digitsVal ds := by
  induction ds with
  | nil => intro a; simp [digitsVal]
  | cons d tl ih =>
    intro a
    have hdlt : d < 10 := hd d (List.mem_cons_self d tl)
    have htl : ∀ x ∈ tl, x < 10 := fun x hx => hd x (List.mem_cons_of_mem d hx)
    simp only [List.map_cons, List.reverse_cons, List.foldl_append, List.foldl_cons,
      List.foldl_nil, ih htl, digitsVal, List.length_cons]
    rw [digitChar_toNat d hdlt]
    ring_nf
    omega

theorem printNat_all_digit (n : Nat) : ∀ c ∈ printNat n, c.isDigit = true := by
  intro c hc
  unfold printNat at hc
  by_cases h0 : n = 0
  · rw [if_pos h0] at hc
    rw [List.mem_singleton] at hc
    subst hc
    decide
  · rw [if_neg h0] at hc
    rw [List.mem_reverse, List.mem_map] at hc
    obtain ⟨d, hdmem, rfl⟩ := hc
    exact digitChar_isDigit d (natDigitsRev_lt n n d hdmem)

theorem printNat_ne_nil (n : Nat) : printNat n ≠ [] := by
  unfold printNat
  by_cases h0 : n = 0
  · rw [if_pos h0]
    decide
  · rw [if_neg h0]
    intro hcon
    have h1 : natDigitsRev n n = [] := by
      rcases hm : natDigitsRev n n with _ | ⟨d, ds⟩
      · rfl
      · rw [hm] at hcon
        simp at hcon
    exact natDigitsRev_ne_nil n n (by omega) (le_refl n) h1

theorem parseNatDigits_printNat (n : Nat) : parseNatDigits (printNat n) = some n := by
  by_cases h0 : n = 0
  · subst h0; decide
  · have hne : printNat n ≠ [] := printNat_ne_nil n
    have hall : (printNat n).all Char.isDigit = true := by
      rw [List.all_eq_true]; exact printNat_all_digit n
    unfold parseNatDigits
    rw [if_pos ⟨hne, hall⟩]
    unfold printNat
    simp only [h0, if_false]
    rw [foldl_digits _ (fun d hd => natDigitsRev_lt n n d hd) 0]
    rw [natDigitsRev_val n n (le_refl n)]
    simp

theorem parseInt_printInt (i : Int) : parseInt (printInt i) = some i := by
  by_cases hneg : i < 0
  · unfold printInt
    rw [if_pos hneg]
    show (if ('-' : Char) = '-' then (parseNatDigits (printNat i.natAbs)).map (fun n => -(n : Int))
          else if ('-' : Char) = '+' then (parseNatDigits (printNat i.natAbs)).map (fun n => (n : Int))
          else (parseNatDigits ('-' :: printNat i.natAbs)).map (fun n => (n : Int))) = some i
    rw [if_pos rfl, parseNatDigits_printNat]
    show some (-((i.natAbs : Nat) : Int)) = some i
    congr 1
    omega
  · unfold printInt
    rw [if_neg hneg]
    rcases hs : printNat i.toNat with _ | ⟨c, rest⟩
    · exact absurd hs (printNat_ne_nil _)
    · have hcdig : c.isDigit = true := by
        have := printNat_all_digit i.toNat c
        rw [hs] at this
        exact this (List.mem_cons_self c rest)
      have hc1 : ¬ c = '-' := by
        intro h; subst h; exact absurd hcdig (by decide)
      have hc2 : ¬ c = '+' := by
        intro h; subst h; exact absurd hcdig (by decide)
      show (if c = '-' then (parseNatDigits rest).map (fun n => -(n : Int))
            else if c = '+' then (parseNatDigits rest).map (fun n => (n : Int))
            else (parseNatDigits (c :: rest)).map (fun n => (n : Int))) = some i
      rw [if_neg hc1, if_neg hc2, ← hs, parseNatDigits_printNat]
      show some ((i.toNat : Nat) : Int) = some i
      congr 1
      omega

theorem isDigit_ne_colon {c : Char} (h : c.isDigit = true) : c ≠ ':' := by
  intro hcon; subst hcon; exact absurd h (by decide)

theorem printInt_no_colon (i : Int) : ':' ∉ printInt i := by
  unfold printInt
  by_cases hneg : i < 0
  · rw [if_pos hneg]
    intro hmem
    rcases List.mem_cons.mp hmem with h | h
    · exact absurd h.symm (by decide)
    · exact isDigit_ne_colon (printNat_all_digit _ _ h) rfl
  · rw [if_neg hneg]
    intro hmem
    exact isDigit_ne_colon (printNat_all_digit _ _ hmem) rfl

theorem splitOnChar_ne_nil (sep : Char) (s : List Char) : splitOnChar sep s ≠ [] := by
  induction s with
  | nil => simp [splitOnChar]
  | cons c t ih =>
    unfold splitOnChar
    by_cases hc : c = sep
    · simp [hc]
    · simp only [hc, if_false]
      rcases h : splitOnChar sep t with _ | ⟨h1, rt⟩
      · simp
      · simp

theorem splitOnChar_no_sep (sep : Char) (xs : List Char) (h : sep ∉ xs) :
    splitOnChar sep xs = [xs] := by
  induction xs with
  | nil => rfl
  | cons c t ih =>
    have hc : ¬ c = sep := fun hcon => h (hcon ▸ List.mem_cons_self c t)
    have ht : sep ∉ t := fun hcon => h (List.mem_cons_of_mem c hcon)
    unfold splitOnChar
    rw [ih ht]
    simp [hc]

theorem splitOnChar_append (sep : Char) (xs ys : List Char) (h : sep ∉ xs) :
    splitOnChar sep (xs ++ sep :: ys) = xs :: splitOnChar sep ys := by
  induction xs with
  | nil =>
    show splitOnChar sep (sep :: ys) = [] :: splitOnChar sep ys
    simp only [splitOnChar, eq_self_iff_true, if_true]
  | cons c t ih =>
    have hc : ¬ c = sep := fun hcon => h (hcon ▸ List.mem_cons_self c t)
    have ht : sep ∉ t := fun hcon => h (List.mem_cons_of_mem c hcon)
    show splitOnChar sep (c :: (t ++ sep :: ys)) = (c :: t) :: splitOnChar sep ys
    simp only [splitOnChar, ih ht]
    rw [if_neg hc]

/-!
## Click Identifier Codec (src/app/core/click_id.py)

The HMAC-SHA256 signing step `_sign(payload, secret)` (a pure deterministic
function of the payload once the process-wide secret is fixed, returning 16
hex characters) is modeled by an abstract function parameter
`sign : List Char → List Char`; the only property of it the code relies on
is that its output contains no colon, which holds for hex digests.  The
uuid and the clock reads are likewise passed in explicitly.
-/

/-- The `ClickId` dataclass. -/
structure ClickId where
  uid : List Char
  expiry : Int
  signature : List Char
deriving DecidableEq

/-- `str(ClickId)`: the colon-delimited serialization. -/
def clickIdStr (c : ClickId) : List Char :=
  c.uid ++ ':' :: (printInt c.expiry ++ ':' :: c.signature)

/-- `ClickId.is_expired` at clock value `now`. -/
def clickIdIsExpired (now : Int) (c : ClickId) : Bool := now > c.expiry

/-- `mint_click_id`: `uid` is the freshly generated uuid hex, `now` the
clock read `int(time.time())`, `ttl` the configured
`click_id_expiry_seconds`. -/
def mint_click_id (sign : List Char → List Char) (uid : List Char) (now ttl : Int) : ClickId :=
  let expiry := now + ttl
  { uid := uid, expiry := expiry, signature := sign (uid ++ ':' :: printInt expiry) }

/-- `verify_click_id` at clock value `now` (`hmac.compare_digest` is
equality on equal-visibility strings). -/
def verify_click_id (sign : List Char → List Char) (now : Int) (raw : List Char) :
    Option ClickId :=
  match splitOnChar ':' raw with
  | [uid, expiryStr, sigStr] =>
    match parseInt expiryStr with
    | none => none
    | some expiry =>
      let expected := sign (uid ++ ':' :: printInt expiry)
      if sigStr ≠ expected then none
      else if now > expiry then none
      else some { uid := uid, expiry := expiry, signature := sigStr }
  | _ => none

/-- Claim C1: round-trip of the click-identifier codec.  For every
configuration (an arbitrary deterministic colon-free signing function,
i.e. any fixed secret key) and positive TTL, verifying the serialized
string of a freshly minted identifier at any time at or before its expiry
succeeds and returns the minted identifier itself (in particular its
unique id and expiry agree with the minted ones). -/
theorem click_id_roundtrip (sign : List Char → List Char) (uid : List Char)
    (mintNow ttl verifyNow : Int)
    (huid : ':' ∉ uid)
    (hsign : ∀ p, ':' ∉ sign p)
    (httl : 0 < ttl)
    (hbefore : verifyNow ≤ mintNow + ttl) :
    verify_click_id sign verifyNow (clickIdStr (mint_click_id sign uid mintNow ttl))
      = some (mint_click_id sign uid mintNow ttl) := by
  have hsplit : splitOnChar ':' (clickIdStr (mint_click_id sign uid mintNow ttl))
      = [uid, printInt (mintNow + ttl),
         sign (uid ++ ':' :: printInt (mintNow + ttl))] := by
    show splitOnChar ':' (uid ++ ':' :: (printInt (mintNow + ttl) ++ ':' ::
        sign (uid ++ ':' :: printInt (mintNow + ttl)))) = _
    rw [splitOnChar_append ':' uid _ huid,
      splitOnChar_append ':' (printInt (mintNow + ttl)) _ (printInt_no_colon _),
      splitOnChar_no_sep ':' _ (hsign _)]
  unfold verify_click_id
  rw [hsplit]
  simp only [parseInt_printInt]
  rw [if_neg (by simp), if_neg (by omega)]
  rfl

/-- Claim C1 witness: a concrete instantiation of the round-trip theorem
(constant signing function, uid "u", mint at time 0, TTL 5, verify at
time 3). -/
theorem click_id_roundtrip_witness :
    verify_click_id (fun _ => lc "aa") 3
        (clickIdStr (mint_click_id (fun _ => lc "aa") (lc "u") 0 5))
      = some (mint_click_id (fun _ => lc "aa") (lc "u") 0 5) :=
  click_id_roundtrip (fun _ => lc "aa") (lc "u") 0 5 3
    (by decide) (fun p => by show ':' ∉ lc "aa"; decide) (by decide) (by decide)

/-- Claim C2: `verify_click_id` returns the invalid result (`none`; it is a
total function, so it never throws) exactly when one of four conditions
holds: the input does not split into exactly 3 colon-delimited parts, the
expiry segment is not a valid integer, the recomputed signature differs
from the given one, or the current time exceeds the expiry; and in
particular, for every configuration, the five malformed inputs listed in
the specification all return invalid. -/
theorem verify_click_id_invalid_iff (sign : List Char → List Char) (now : Int) :
    (∀ raw : List Char,
      (verify_click_id sign now raw = none ↔
        (splitOnChar ':' raw).length ≠ 3
        ∨ parseInt ((splitOnChar ':' raw).getD 1 []) = none
        ∨ (∃ e : Int, parseInt ((splitOnChar ':' raw).getD 1 []) = some e ∧
            (splitOnChar ':' raw).getD 2 []
              ≠ sign ((splitOnChar ':' raw).getD 0 [] ++ ':' :: printInt e))
        ∨ (∃ e : Int, parseInt ((splitOnChar ':' raw).getD 1 []) = some e ∧ now > e)))
    ∧ verify_click_id sign now (lc "") = none
    ∧ verify_click_id sign now (lc "one-part") = none
    ∧ verify_click_id sign now (lc "a:b") = none
    ∧ verify_click_id sign now (lc "a:notanumber:c") = none
    ∧ verify_click_id sign now (lc "a:b:c:d") = none := by
  refine ⟨?_, rfl, rfl, rfl, rfl, rfl⟩
  intro raw
  rcases hs : splitOnChar ':' raw with _ | ⟨a, _ | ⟨b, _ | ⟨c, _ | ⟨d, t⟩⟩⟩⟩
  · exact absurd hs (splitOnChar_ne_nil ':' raw)
  · unfold verify_click_id
    rw [hs]
    simp
  · unfold verify_click_id
    rw [hs]
    simp
  · unfold verify_click_id
    rw [hs]
    have hg0 : ([a, b, c] : List (List Char)).getD 0 [] = a := rfl
    have hg1 : ([a, b, c] : List (List Char)).getD 1 [] = b := rfl
    have hg2 : ([a, b, c] : List (List Char)).getD 2 [] = c := rfl
    have hlen : ([a, b, c] : List (List Char)).length = 3 := rfl
    rw [hg0, hg1, hg2, hlen]
    show (match parseInt b with
          | none => (none : Option ClickId)
          | some expiry =>
            if c ≠ sign (a ++ ':' :: printInt expiry) then none
            else if now > expiry then none
            else some ({ uid := a, expiry := expiry, signature := c } : ClickId)) = none ↔ _
    rcases hp : parseInt b with _ | e
    · constructor
      · intro _
        exact Or.inr (Or.inl rfl)
      · intro _
        rfl
    · show (if c ≠ sign (a ++ ':' :: printInt e) then none
            else if now > e then none
            else some ({ uid := a, expiry := e, signature := c } : ClickId)) = none ↔ _
      by_cases hsig : c = sign (a ++ ':' :: printInt e)
      · by_cases hexp : now > e
        · rw [if_neg (by simp [hsig]), if_pos hexp]
          constructor
          · intro _
            exact Or.inr (Or.inr (Or.inr ⟨e, rfl, hexp⟩))
          · intro _; rfl
        · rw [if_neg (by simp [hsig]), if_neg hexp]
          constructor
          · intro hcon; exact absurd hcon (by simp)
          · intro hcon
            rcases hcon with h | h | h | h
            · omega
            · exact absurd h (by simp)
            · obtain ⟨e2, he2, hne⟩ := h
              rw [Option.some.injEq] at he2
              subst he2
              exact absurd hsig hne
            · obtain ⟨e2, he2, hgt⟩ := h
              rw [Option.some.injEq] at he2
              subst he2
              exact absurd hgt hexp
      · rw [if_pos (by simp [hsig])]
        constructor
        · intro _
          exact Or.inr (Or.inr (Or.inl ⟨e, rfl, hsig⟩))
        · intro _; rfl
  · unfold verify_click_id
    rw [hs]
    simp

/-!
## Bot Risk Scorer (src/app/core/bot_detection.py)

All blocklist regex patterns in the source are literal strings matched with
`re.search(..., re.IGNORECASE)`, i.e. case-insensitive substring tests.
The external user-agents library's `parse(ua).is_bot` flag is modeled by an
abstract function parameter `uaIsBot`.  `risk_score` is a Python float in
the source; every reachable value is an exact multiple of 1/20, so the
score arithmetic is modeled exactly over `ℚ` (and Python's `round(x, 3)`
is modeled as rounding to the nearest thousandth, the identity on every
reachable value).
-/

def HARD_BLOCK_UA_PATTERNS : List (List Char) :=
  [lc "curl/", lc "wget/", lc "python-requests", lc "python-urllib", lc "Go-http-client",
   lc "scrapy", lc "aiohttp", lc "node-fetch", lc "axios/", lc "java/", lc "libwww-perl",
   lc "HeadlessChrome", lc "PhantomJS", lc "Selenium", lc "puppeteer"]

def KNOWN_BOT_UA_PATTERNS : List (List Char) :=
  [lc "Googlebot", lc "bingbot", lc "Slurp", lc "DuckDuckBot", lc "facebookexternalhit",
   lc "Twitterbot", lc "LinkedInBot", lc "Slackbot", lc "TelegramBot", lc "Discordbot",
   lc "WhatsApp"]

def DATACENTER_ASNS : List Nat :=
  [14061, 16509, 15169, 8075, 13335, 20473, 63949, 14618, 396982]

/-- Case-insensitive substring search: `re.search(pat, ua, re.IGNORECASE)`
for a literal pattern. -/
def uaSearch (ua pat : List Char) : Bool := hasSubstr (lowerS ua) (lowerS pat)

/-- Exact-key lookup in a string-keyed dict (`d.get(k)`). -/
def hget (m : List (List Char × List Char)) (k : List Char) : Option (List Char) :=
  (m.find? (fun e => e.1 = k)).map (fun e => e.2)

/-- The `BotSignals` dataclass (the free-form `details` dict is carried
nowhere relevant and is omitted). -/
structure BotSignals where
  ua_blocked : Bool
  ua_is_known_bot : Bool
  ua_is_bot_lib : Bool
  missing_accept_language : Bool
  missing_sec_fetch : Bool
  is_datacenter_ip : Bool
  rate_limited : Bool
deriving DecidableEq

/-- The `BotVerdict` dataclass. -/
structure BotVerdict where
  risk_score : ℚ
  should_block : Bool
  signals : BotSignals
  reason : List Char
deriving DecidableEq

/-- Python `round(x, 3)` (round to the nearest thousandth; every reachable
score is a multiple of 1/20, where this is the identity). -/
def round3 (q : ℚ) : ℚ := ((⌊q * 1000 + 1 / 2⌋ : Int) : ℚ) / 1000

/-- The early-return verdict of the hard-block layer. -/
def hardBlockVerdict (pat : List Char) : BotVerdict :=
  { risk_score := 1, should_block := true,
    signals := { ua_blocked := true, ua_is_known_bot := false, ua_is_bot_lib := false,
                 missing_accept_language := false, missing_sec_fetch := false,
                 is_datacenter_ip := false, rate_limited := false },
    reason := lc "Blocked UA: " ++ pat }

/-- Python falsiness of `d.get(k)` (`None` or the empty string). -/
def pyFalsyOpt (o : Option (List Char)) : Bool :=
  match o with
  | some v => v.isEmpty
  | none => true

/-- `if asn and asn in DATACENTER_ASNS` (Python truthiness: 0 is falsy). -/
def asnIsDatacenter (asn : Option Nat) : Bool :=
  match asn with
  | some a => decide (a ≠ 0) && DATACENTER_ASNS.contains a
  | none => false

/-- `any(k.lower().startswith("sec-fetch") for k in headers)`. -/
def headersHaveSecFetch (headers : List (List Char × List Char)) : Bool :=
  headers.any (fun e => (lc "sec-fetch").isPrefixOf (lowerS e.1))

/-- The additive-scoring remainder of `score_request` (everything after the
hard-block layer in the source, layers 1 (known bots) through 4). -/
def score_request_soft (uaIsBot : List Char → Bool) (ua : List Char)
    (headers : List (List Char × List Char)) (asn : Option Nat) (rate_limited : Bool) :
    BotVerdict :=
  let knownCount := (KNOWN_BOT_UA_PATTERNS.filter (fun p => uaSearch ua p)).length
  let uaKnown := decide (knownCount ≠ 0)
  let botLib := !ua.isEmpty && uaIsBot ua
  let missLang := pyFalsyOpt (hget headers (lc "accept-language"))
  let missSF := !headersHaveSecFetch headers && !ua.isEmpty && hasSubstr ua (lc "Mozilla")
  let dc := asnIsDatacenter asn
  let score : ℚ :=
    (0.6 : ℚ) * (knownCount : ℚ) + (if botLib then (0.4 : ℚ) else 0)
      + (if missLang then (0.15 : ℚ) else 0) + (if missSF then (0.2 : ℚ) else 0)
      + (if dc then (0.25 : ℚ) else 0) + (if rate_limited then (0.3 : ℚ) else 0)
  { risk_score := round3 (min score 1), should_block := false,
    signals := { ua_blocked := false, ua_is_known_bot := uaKnown, ua_is_bot_lib := botLib,
                 missing_accept_language := missLang, missing_sec_fetch := missSF,
                 is_datacenter_ip := dc, rate_limited := rate_limited },
    reason := lc "" }

/-- `score_request` (`ua_str = user_agent or ""` is `user_agent.getD []`). -/
def score_request (uaIsBot : List Char → Bool) (user_agent : Option (List Char))
    (headers : List (List Char × List Char)) (asn : Option Nat) (rate_limited : Bool) :
    BotVerdict :=
  match HARD_BLOCK_UA_PATTERNS.find? (fun p => uaSearch (user_agent.getD []) p) with
  | some pat => hardBlockVerdict pat
  | none => score_request_soft uaIsBot (user_agent.getD []) headers asn rate_limited

/-- Does the user agent match a hard-block automation signature? -/
def uaHardBlocked (ua : List Char) : Bool :=
  HARD_BLOCK_UA_PATTERNS.any (fun p => uaSearch ua p)

/-- Claim C5: hard-block soundness of the bot scorer.  For every user
agent, headers map, ASN and rate-limit flag (and any behavior of the
external user-agents library), a request whose user agent matches an
automation-library signature scores exactly 1.0 with `should_block`, and
conversely every blocking verdict has risk score exactly 1.0 and arises
only from a hard-block user-agent match. -/
theorem score_request_hard_block (uaIsBot : List Char → Bool)
    (user_agent : Option (List Char)) (headers : List (List Char × List Char))
    (asn : Option Nat) (rate_limited : Bool) :
    (uaHardBlocked (user_agent.getD []) = true →
      (score_request uaIsBot user_agent headers asn rate_limited).risk_score = 1 ∧
      (score_request uaIsBot user_agent headers asn rate_limited).should_block = true)
    ∧ ((score_request uaIsBot user_agent headers asn rate_limited).should_block = true →
      (score_request uaIsBot user_agent headers asn rate_limited).risk_score = 1 ∧
      uaHardBlocked (user_agent.getD []) = true) := by
  rcases hf : HARD_BLOCK_UA_PATTERNS.find? (fun p => uaSearch (user_agent.getD []) p)
    with _ | pat
  · have hs : score_request uaIsBot user_agent headers asn rate_limited
        = score_request_soft uaIsBot (user_agent.getD []) headers asn rate_limited := by
      unfold score_request
      rw [hf]
    have hb : uaHardBlocked (user_agent.getD []) = false := by
      rw [List.find?_eq_none] at hf
      unfold uaHardBlocked
      rw [List.any_eq_false]
      intro p hp
      exact fun hcon => hf p hp hcon
    have hnb : (score_request_soft uaIsBot (user_agent.getD []) headers asn
        rate_limited).should_block = false := rfl
    constructor
    · intro h
      rw [hb] at h
      exact absurd h (by simp)
    · intro h
      rw [hs, hnb] at h
      exact absurd h (by simp)
  · have hs : score_request uaIsBot user_agent headers asn rate_limited
        = hardBlockVerdict pat := by
      unfold score_request
      rw [hf]
    have hb : uaHardBlocked (user_agent.getD []) = true := by
      unfold uaHardBlocked
      rw [List.any_eq_true]
      exact ⟨pat, List.mem_of_find?_eq_some hf, List.find?_some hf⟩
    rw [hs]
    exact ⟨fun _ => ⟨rfl, rfl⟩, fun _ => ⟨rfl, hb⟩⟩

/-- Claim C5 witness: concrete instantiation with user agent
"curl/7.88.1", empty headers, no ASN, not rate-limited. -/
theorem score_request_hard_block_witness :
    (score_request (fun _ => false) (some (lc "curl/7.88.1")) [] none false).risk_score = 1 ∧
    (score_request (fun _ => false) (some (lc "curl/7.88.1")) [] none false).should_block
      = true :=
  (score_request_hard_block (fun _ => false) (some (lc "curl/7.88.1")) [] none false).1
    (by decide)

/-- A realistic desktop Chrome user agent (matches no bot signature). -/
def chromeUA : List Char :=
  lc "Mozilla/5.0 (Windows NT 10.0; Win64; x64) AppleWebKit/537.36 (KHTML, like Gecko) Chrome/120.0.0.0 Safari/537.36"

/-- Complete clean-request headers: Accept-Language and Sec-Fetch-* present. -/
def baseHeaders : List (List Char × List Char) :=
  [(lc "accept-language", lc "en-US,en;q=0.9"),
   (lc "sec-fetch-site", lc "none"),
   (lc "sec-fetch-mode", lc "navigate"),
   (lc "sec-fetch-dest", lc "document")]

/-- The clean headers with the Accept-Language header removed. -/
def noLangHeaders : List (List Char × List Char) :=
  [(lc "sec-fetch-site", lc "none"),
   (lc "sec-fetch-mode", lc "navigate"),
   (lc "sec-fetch-dest", lc "document")]

/-- The clean headers with the Sec-Fetch-* headers removed. -/
def noSecFetchHeaders : List (List Char × List Char) :=
  [(lc "accept-language", lc "en-US,en;q=0.9")]

theorem score_request_soft_congr (f g : List Char → Bool) (ua : List Char)
    (headers : List (List Char × List Char)) (asn : Option Nat) (rl : Bool)
    (h : f ua = g ua) :
    score_request_soft f ua headers asn rl = score_request_soft g ua headers asn rl := by
  unfold score_request_soft
  rw [h]

/-- Evaluation of the additive score from its individual signals. -/
theorem score_request_soft_risk (f : List Char → Bool) (ua : List Char)
    (headers : List (List Char × List Char)) (asn : Option Nat) (rl : Bool)
    (kc : Nat) (bl ml ms dc : Bool)
    (hkc : (KNOWN_BOT_UA_PATTERNS.filter (fun p => uaSearch ua p)).length = kc)
    (hbl : (!ua.isEmpty && f ua) = bl)
    (hml : pyFalsyOpt (hget headers (lc "accept-language")) = ml)
    (hms : (!headersHaveSecFetch headers && !ua.isEmpty && hasSubstr ua (lc "Mozilla")) = ms)
    (hdc : asnIsDatacenter asn = dc) :
    (score_request_soft f ua headers asn rl).risk_score
      = round3 (min ((0.6 : ℚ) * (kc : ℚ) + (if bl then (0.4 : ℚ) else 0)
          + (if ml then (0.15 : ℚ) else 0) + (if ms then (0.2 : ℚ) else 0)
          + (if dc then (0.25 : ℚ) else 0) + (if rl then (0.3 : ℚ) else 0)) 1) := by
  simp only [score_request_soft, hkc, hbl, hml, hms, hdc]

/-- Claim C8: clean-traffic floor and monotonicity of the bot scorer.  A
clean baseline request (desktop Chrome user agent matching no bot
signature — in particular the external user-agents library reports it as
not a bot — with Accept-Language and Sec-Fetch-* headers, no ASN, not
rate-limited) scores exactly 0.0 without blocking, and adding exactly one
negative signal (dropping Accept-Language, dropping Sec-Fetch-*,
supplying a datacenter ASN, or the rate-limited flag) strictly increases
the risk score above the baseline while `should_block` stays false. -/
theorem score_request_clean_monotone (uaIsBot : List Char → Bool)
    (h : uaIsBot chromeUA = false) :
    ((score_request uaIsBot (some chromeUA) baseHeaders none false).risk_score = 0
      ∧ (score_request uaIsBot (some chromeUA) baseHeaders none false).should_block = false)
    ∧ ((score_request uaIsBot (some chromeUA) baseHeaders none false).risk_score
        < (score_request uaIsBot (some chromeUA) noLangHeaders none false).risk_score
      ∧ (score_request uaIsBot (some chromeUA) noLangHeaders none false).should_block = false)
    ∧ ((score_request uaIsBot (some chromeUA) baseHeaders none false).risk_score
        < (score_request uaIsBot (some chromeUA) noSecFetchHeaders none false).risk_score
      ∧ (score_request uaIsBot (some chromeUA) noSecFetchHeaders none false).should_block
          = false)
    ∧ ((score_request uaIsBot (some chromeUA) baseHeaders none false).risk_score
        < (score_request uaIsBot (some chromeUA) baseHeaders (some 16509) false).risk_score
      ∧ (score_request uaIsBot (some chromeUA) baseHeaders (some 16509) false).should_block
          = false)
    ∧ ((score_request uaIsBot (some chromeUA) baseHeaders none false).risk_score
        < (score_request uaIsBot (some chromeUA) baseHeaders none true).risk_score
      ∧ (score_request uaIsBot (some chromeUA) baseHeaders none true).should_block
          = false) := by
  have hrw : ∀ (hd : List (List Char × List Char)) (asn : Option Nat) (rl : Bool),
      score_request uaIsBot (some chromeUA) hd asn rl
        = score_request_soft uaIsBot chromeUA hd asn rl := by
    intro hd asn rl
    have hf : HARD_BLOCK_UA_PATTERNS.find?
        (fun p => uaSearch ((some chromeUA).getD []) p) = none := by decide
    unfold score_request
    rw [hf]
    rfl
  have hbl : (!chromeUA.isEmpty && uaIsBot chromeUA) = false := by
    rw [h, Bool.and_false]
  have hkc : (KNOWN_BOT_UA_PATTERNS.filter (fun p => uaSearch chromeUA p)).length = 0 := by
    decide
  have hbase := score_request_soft_risk uaIsBot chromeUA baseHeaders none false
    0 false false false false hkc hbl (by decide) (by decide) (by decide)
  have hnl := score_request_soft_risk uaIsBot chromeUA noLangHeaders none false
    0 false true false false hkc hbl (by decide) (by decide) (by decide)
  have hnsf := score_request_soft_risk uaIsBot chromeUA noSecFetchHeaders none false
    0 false false true false hkc hbl (by decide) (by decide) (by decide)
  have hdc := score_request_soft_risk uaIsBot chromeUA baseHeaders (some 16509) false
    0 false false false true hkc hbl (by decide) (by decide) (by decide)
  have hrl := score_request_soft_risk uaIsBot chromeUA baseHeaders none true
    0 false false false false hkc hbl (by decide) (by decide) (by decide)
  have hsb : ∀ (hd : List (List Char × List Char)) (asn : Option Nat) (rl : Bool),
      (score_request_soft uaIsBot chromeUA hd asn rl).should_block = false := by
    intro hd asn rl
    rfl
  simp only [hrw, hbase, hnl, hnsf, hdc, hrl, hsb]
  norm_num [round3]

/-- Claim C8 witness: concrete instantiation with a user-agents library
stub that flags nothing as a bot. -/
theorem score_request_clean_monotone_witness :
    ((score_request (fun _ => false) (some chromeUA) baseHeaders none false).risk_score = 0
      ∧ (score_request (fun _ => false) (some chromeUA) baseHeaders none
          false).should_block = false)
    ∧ ((score_request (fun _ => false) (some chromeUA) baseHeaders none false).risk_score
        < (score_request (fun _ => false) (some chromeUA) noLangHeaders none
            false).risk_score
      ∧ (score_request (fun _ => false) (some chromeUA) noLangHeaders none
          false).should_block = false)
    ∧ ((score_request (fun _ => false) (some chromeUA) baseHeaders none false).risk_score
        < (score_request (fun _ => false) (some chromeUA) noSecFetchHeaders none
            false).risk_score
      ∧ (score_request (fun _ => false) (some chromeUA) noSecFetchHeaders none
          false).should_block = false)
    ∧ ((score_request (fun _ => false) (some chromeUA) baseHeaders none false).risk_score
        < (score_request (fun _ => false) (some chromeUA) baseHeaders (some 16509)
            false).risk_score
      ∧ (score_request (fun _ => false) (some chromeUA) baseHeaders (some 16509)
          false).should_block = false)
    ∧ ((score_request (fun _ => false) (some chromeUA) baseHeaders none false).risk_score
        < (score_request (fun _ => false) (some chromeUA) baseHeaders none
            true).risk_score
      ∧ (score_request (fun _ => false) (some chromeUA) baseHeaders none
          true).should_block = false) :=
  score_request_clean_monotone (fun _ => false) rfl

/-!
## Referrer / Source Classifier (src/app/core/referrer_intelligence.py)

Only the source-classification output (`source_platform`, `source_medium`,
`source_detail`, the in-app fields and the parsed referer fields) is
embedded; the device and language enrichment fields are filled from the
external user-agents library and from `Accept-Language` and do not feed
back into the classification, so they are not modeled.  All in-app/email
regex patterns in the source are literal substrings except
`FBAN/FBIOS.*Instagram` (two literals separated by a wildcard) and
`\[FB` (the literal `[FB`); matching is case-insensitive `re.search`.
-/

/-- A user-agent regex pattern of the source: a literal, or two literals
separated by `.*`. -/
inductive UAPat where
  | lit : List Char → UAPat
  | wild : List Char → List Char → UAPat
deriving DecidableEq

/-- `re.search("A.*B", hay)`: an occurrence of `a` followed (disjointly) by
an occurrence of `b`.  Scanning from the leftmost occurrence of `a` is
equivalent to the regex semantics. -/
def searchAfter (a b : List Char) : List Char → Bool
  | [] => a.isEmpty && b.isEmpty
  | c :: t =>
    if a.isPrefixOf (c :: t) then hasSubstr ((c :: t).drop a.length) b
    else searchAfter a b t

/-- Case-insensitive `re.search` for the two pattern shapes used. -/
def reSearch (p : UAPat) (ua : List Char) : Bool :=
  match p with
  | .lit s => hasSubstr (lowerS ua) (lowerS s)
  | .wild a b => searchAfter (lowerS a) (lowerS b) (lowerS ua)

/-- `IN_APP_PATTERNS`, in source (dict-insertion) order. -/
def IN_APP_PATTERNS : List (List Char × List UAPat) :=
  [(lc "instagram", [.lit (lc "Instagram"), .wild (lc "FBAN/FBIOS") (lc "Instagram")]),
   (lc "tiktok", [.lit (lc "BytedanceWebview"), .lit (lc "ByteLocale"),
                  .lit (lc "musical_ly"), .lit (lc "TikTok")]),
   (lc "facebook", [.lit (lc "FBAN/"), .lit (lc "FBAV/"), .lit (lc "FB_IAB"),
                    .lit (lc "[FB")]),
   (lc "snapchat", [.lit (lc "Snapchat")]),
   (lc "twitter", [.lit (lc "Twitter"), .lit (lc "TwitterAndroid")]),
   (lc "linkedin", [.lit (lc "LinkedInApp")]),
   (lc "pinterest", [.lit (lc "Pinterest")]),
   (lc "reddit", [.lit (lc "Reddit/")]),
   (lc "telegram", [.lit (lc "TelegramBot"), .lit (lc "Telegram")]),
   (lc "whatsapp", [.lit (lc "WhatsApp")]),
   (lc "wechat", [.lit (lc "MicroMessenger")]),
   (lc "line", [.lit (lc "Line/")]),
   (lc "discord", [.lit (lc "Discord")]),
   (lc "threads", [.lit (lc "Barcelona")]),
   (lc "youtube", [.lit (lc "com.google.android.youtube"), .lit (lc "YouTube")])]

/-- `_detect_in_app_browser`. -/
def detect_in_app_browser (ua : List Char) : Bool × Option (List Char) :=
  if ua.isEmpty then (false, none)
  else
    match IN_APP_PATTERNS.find? (fun pr => pr.2.any (fun p => reSearch p ua)) with
    | some pr => (true, some pr.1)
    | none => (false, none)

/-- `CLICK_ID_TO_PLATFORM`, in source order: (param, platform, medium). -/
def CLICK_ID_TO_PLATFORM : List (List Char × List Char × List Char) :=
  [(lc "fbclid", lc "facebook", lc "social"),
   (lc "gclid", lc "google", lc "paid"),
   (lc "gbraid", lc "google", lc "paid"),
   (lc "wbraid", lc "google", lc "paid"),
   (lc "ttclid", lc "tiktok", lc "social"),
   (lc "twclid", lc "twitter", lc "social"),
   (lc "li_fat_id", lc "linkedin", lc "social"),
   (lc "sclid", lc "snapchat", lc "social"),
   (lc "msclkid", lc "bing", lc "paid"),
   (lc "mc_eid", lc "mailchimp", lc "email"),
   (lc "igshid", lc "instagram", lc "social"),
   (lc "pin_click_id", lc "pinterest", lc "social"),
   (lc "rdt_cid", lc "reddit", lc "social"),
   (lc "yclid", lc "yandex", lc "paid"),
   (lc "dclid", lc "google", lc "paid"),
   (lc "_branch_match_id", lc "branch", lc "referral")]

/-- `param_name in query_params and query_params[param_name]` (key present
with a truthy, i.e. non-empty, value). -/
def qTruthy (qp : List (List Char × List Char)) (k : List Char) : Bool :=
  match hget qp k with
  | some v => !v.isEmpty
  | none => false

/-- `_detect_platform_click_ids`: first matching click-id parameter wins. -/
def detect_platform_click_ids (qp : List (List Char × List Char)) :
    Option (List Char × List Char × List Char) :=
  if qp.isEmpty then none
  else
    (CLICK_ID_TO_PLATFORM.find? (fun e => qTruthy qp e.1)).map
      (fun e => (e.2.1, e.2.2, if e.2.2 = lc "paid" then lc "paid" else lc "click_id"))

/-- `UTM_SOURCE_MAP`, in source order: (alias, platform, medium). -/
def UTM_SOURCE_MAP : List (List Char × List Char × List Char) :=
  [(lc "instagram", lc "instagram", lc "social"),
   (lc "ig", lc "instagram", lc "social"),
   (lc "tiktok", lc "tiktok", lc "social"),
   (lc "tt", lc "tiktok", lc "social"),
   (lc "facebook", lc "facebook", lc "social"),
   (lc "fb", lc "facebook", lc "social"),
   (lc "twitter", lc "twitter", lc "social"),
   (lc "x", lc "twitter", lc "social"),
   (lc "youtube", lc "youtube", lc "social"),
   (lc "yt", lc "youtube", lc "social"),
   (lc "linkedin", lc "linkedin", lc "social"),
   (lc "li", lc "linkedin", lc "social"),
   (lc "pinterest", lc "pinterest", lc "social"),
   (lc "reddit", lc "reddit", lc "social"),
   (lc "snapchat", lc "snapchat", lc "social"),
   (lc "threads", lc "threads", lc "social"),
   (lc "telegram", lc "telegram", lc "messaging"),
   (lc "whatsapp", lc "whatsapp", lc "messaging"),
   (lc "discord", lc "discord", lc "messaging"),
   (lc "google", lc "google", lc "search"),
   (lc "bing", lc "bing", lc "search"),
   (lc "gmail", lc "gmail", lc "email"),
   (lc "email", lc "email", lc "email"),
   (lc "newsletter", lc "newsletter", lc "email"),
   (lc "mailchimp", lc "mailchimp", lc "email"),
   (lc "sendgrid", lc "sendgrid", lc "email"),
   (lc "klaviyo", lc "klaviyo", lc "email"),
   (lc "sms", lc "sms", lc "messaging"),
   (lc "text", lc "sms", lc "messaging")]

/-- `_detect_utm_source`. -/
def detect_utm_source (qp : List (List Char × List Char)) :
    Option (List Char × List Char × Option (List Char)) :=
  if qp.isEmpty then none
  else
    let us := lowerS (stripWs ((hget qp (lc "utm_source")).getD []))
    let um := lowerS (stripWs ((hget qp (lc "utm_medium")).getD []))
    let uc := lowerS (stripWs ((hget qp (lc "utm_campaign")).getD []))
    if us.isEmpty then none
    else
      match UTM_SOURCE_MAP.find? (fun e => e.1 = us) with
      | some e =>
        some (e.2.1, if um.isEmpty then e.2.2 else um,
          if uc.isEmpty then none else some uc)
      | none =>
        some (us, if um.isEmpty then lc "referral" else um,
          if uc.isEmpty then none else some uc)

/-- `EMAIL_CLIENT_PATTERNS`, in source order (all literal patterns). -/
def EMAIL_CLIENT_PATTERNS : List (List Char × List (List Char)) :=
  [(lc "gmail", [lc "Googlebot", lc "Google-Safety"]),
   (lc "outlook", [lc "Microsoft Office", lc "Outlook", lc "ms-office"]),
   (lc "yahoo", [lc "Yahoo! Slurp", lc "YahooMailProxy"]),
   (lc "apple_mail", [lc "AppleMail"]),
   (lc "thunderbird", [lc "Thunderbird"])]

/-- `_detect_email_client`. -/
def detect_email_client (ua : List Char) : Bool × Option (List Char) :=
  if ua.isEmpty then (false, none)
  else
    match EMAIL_CLIENT_PATTERNS.find? (fun pr => pr.2.any (fun p => uaSearch ua p)) with
    | some pr => (true, some pr.1)
    | none => (false, none)

/-- `_classify_sec_fetch`. -/
def classify_sec_fetch (headers : List (List Char × List Char)) :
    Option (List Char × List Char) :=
  if headers.isEmpty then none
  else
    let sfs := lowerS ((hget headers (lc "sec-fetch-site")).getD [])
    if sfs = lc "cross-site" then some (lc "unknown_external", lc "referral")
    else if sfs = lc "same-site" then some (lc "same_site", lc "internal")
    else if sfs = lc "same-origin" then some (lc "same_origin", lc "internal")
    else none

/-- The parse result of `urllib.parse.urlparse`. -/
structure UrlParts where
  scheme : List Char
  netloc : List Char
  path : List Char
  query : List Char
  fragment : List Char
deriving DecidableEq

/-- `urllib.parse.urlparse`, modeled for the URL shapes the code receives:
an optional fragment after the first hash, an optional
`scheme://netloc` head (netloc extending to the first slash or question
mark), then path and query split at the first question mark. -/
def urlparse (url : List Char) : UrlParts :=
  let hf := splitFirst '#' url
  let fragment := hf.2.getD []
  match splitSub (lc "://") hf.1 with
  | some sr =>
    let netloc := sr.2.takeWhile (fun c => !(c = '/' || c = '?'))
    let rest := sr.2.dropWhile (fun c => !(c = '/' || c = '?'))
    let pq := splitFirst '?' rest
    { scheme := lowerS sr.1, netloc := netloc, path := pq.1, query := (pq.2).getD [],
      fragment := fragment }
  | none =>
    let pq := splitFirst '?' hf.1
    { scheme := [], netloc := [], path := pq.1, query := (pq.2).getD [],
      fragment := fragment }

/-- `DOMAIN_TO_PLATFORM`, in source order: (domain, platform, medium). -/
def DOMAIN_TO_PLATFORM : List (List Char × List Char × List Char) :=
  [(lc "instagram.com", lc "instagram", lc "social"),
   (lc "l.instagram.com", lc "instagram", lc "social"),
   (lc "www.instagram.com", lc "instagram", lc "social"),
   (lc "tiktok.com", lc "tiktok", lc "social"),
   (lc "www.tiktok.com", lc "tiktok", lc "social"),
   (lc "vm.tiktok.com", lc "tiktok", lc "social"),
   (lc "twitter.com", lc "twitter", lc "social"),
   (lc "x.com", lc "twitter", lc "social"),
   (lc "t.co", lc "twitter", lc "social"),
   (lc "facebook.com", lc "facebook", lc "social"),
   (lc "www.facebook.com", lc "facebook", lc "social"),
   (lc "m.facebook.com", lc "facebook", lc "social"),
   (lc "l.facebook.com", lc "facebook", lc "social"),
   (lc "lm.facebook.com", lc "facebook", lc "social"),
   (lc "fb.me", lc "facebook", lc "social"),
   (lc "youtube.com", lc "youtube", lc "social"),
   (lc "www.youtube.com", lc "youtube", lc "social"),
   (lc "m.youtube.com", lc "youtube", lc "social"),
   (lc "youtu.be", lc "youtube", lc "social"),
   (lc "linkedin.com", lc "linkedin", lc "social"),
   (lc "www.linkedin.com", lc "linkedin", lc "social"),
   (lc "lnkd.in", lc "linkedin", lc "social"),
   (lc "pinterest.com", lc "pinterest", lc "social"),
   (lc "www.pinterest.com", lc "pinterest", lc "social"),
   (lc "pin.it", lc "pinterest", lc "social"),
   (lc "reddit.com", lc "reddit", lc "social"),
   (lc "www.reddit.com", lc "reddit", lc "social"),
   (lc "old.reddit.com", lc "reddit", lc "social"),
   (lc "snapchat.com", lc "snapchat", lc "social"),
   (lc "www.snapchat.com", lc "snapchat", lc "social"),
   (lc "threads.net", lc "threads", lc "social"),
   (lc "www.threads.net", lc "threads", lc "social"),
   (lc "tumblr.com", lc "tumblr", lc "social"),
   (lc "www.tumblr.com", lc "tumblr", lc "social"),
   (lc "google.com", lc "google", lc "search"),
   (lc "www.google.com", lc "google", lc "search"),
   (lc "google.co.uk", lc "google", lc "search"),
   (lc "google.ca", lc "google", lc "search"),
   (lc "bing.com", lc "bing", lc "search"),
   (lc "www.bing.com", lc "bing", lc "search"),
   (lc "duckduckgo.com", lc "duckduckgo", lc "search"),
   (lc "yahoo.com", lc "yahoo", lc "search"),
   (lc "search.yahoo.com", lc "yahoo", lc "search"),
   (lc "baidu.com", lc "baidu", lc "search"),
   (lc "www.baidu.com", lc "baidu", lc "search"),
   (lc "yandex.com", lc "yandex", lc "search"),
   (lc "t.me", lc "telegram", lc "messaging"),
   (lc "web.telegram.org", lc "telegram", lc "messaging"),
   (lc "wa.me", lc "whatsapp", lc "messaging"),
   (lc "web.whatsapp.com", lc "whatsapp", lc "messaging"),
   (lc "discord.com", lc "discord", lc "messaging"),
   (lc "discordapp.com", lc "discord", lc "messaging"),
   (lc "mail.google.com", lc "gmail", lc "email"),
   (lc "outlook.live.com", lc "outlook", lc "email"),
   (lc "outlook.office.com", lc "outlook", lc "email"),
   (lc "outlook.office365.com", lc "outlook", lc "email"),
   (lc "mail.yahoo.com", lc "yahoo_mail", lc "email"),
   (lc "mail.aol.com", lc "aol_mail", lc "email"),
   (lc "mail.protonmail.com", lc "protonmail", lc "email"),
   (lc "app.mailspring.com", lc "mailspring", lc "email"),
   (lc "bit.ly", lc "bitly", lc "referral"),
   (lc "tinyurl.com", lc "tinyurl", lc "referral"),
   (lc "linktr.ee", lc "linktree", lc "referral"),
   (lc "beacons.ai", lc "beacons", lc "referral"),
   (lc "stan.store", lc "stan_store", lc "referral"),
   (lc "hoo.be", lc "hoobe", lc "referral"),
   (lc "snipfeed.co", lc "snipfeed", lc "referral"),
   (lc "campsite.bio", lc "campsite", lc "referral"),
   (lc "tap.bio", lc "tapbio", lc "referral"),
   (lc "news.ycombinator.com", lc "hackernews", lc "referral"),
   (lc "producthunt.com", lc "producthunt", lc "referral"),
   (lc "www.producthunt.com", lc "producthunt", lc "referral"),
   (lc "medium.com", lc "medium", lc "referral"),
   (lc "substack.com", lc "substack", lc "referral")]

/-- Lowercase ASCII letter test (`[a-z]` in the regional-Google regex). -/
def isLowerAZ (c : Char) : Bool := decide ('a' ≤ c) && decide (c ≤ 'z')

/-- `re.match(r"google\.[a-z]\x7b2,3\x7d(\.[a-z]\x7b2\x7d)?$", domain)`
as a boolean (the braces of the counted repetitions are escaped here). -/
def googleRegional (d : List Char) : Bool :=
  (lc "google.").isPrefixOf d &&
    (let rest := d.drop 7
     let letters := rest.takeWhile isLowerAZ
     let t := rest.drop letters.length
     decide (2 ≤ letters.length) && decide (letters.length ≤ 3) &&
       (t.isEmpty ||
         (decide (t.length = 3) && decide (t.headD ' ' = '.') &&
           (t.drop 1).all isLowerAZ)))

/-- `_extract_source_detail`. -/
def extract_source_detail (platform : List Char) (path : List Char) :
    Option (List Char) :=
  if path.isEmpty then none
  else
    let pl := lowerS path
    if platform = lc "instagram" then
      if hasSubstr pl (lc "/stories/") then some (lc "story")
      else if hasSubstr pl (lc "/p/") then some (lc "post")
      else if hasSubstr pl (lc "/reel/") then some (lc "reel")
      else if hasSubstr pl (lc "/direct/") then some (lc "dm")
      else if pl = lc "/" ∨ pl = [] then some (lc "bio")
      else some (lc "feed")
    else if platform = lc "tiktok" then
      if hasSubstr pl (lc "/video/") ∨ hasSubstr pl (lc "/@") then some (lc "video")
      else some (lc "feed")
    else if platform = lc "youtube" then
      if hasSubstr pl (lc "/watch") then some (lc "video")
      else if hasSubstr pl (lc "/shorts/") then some (lc "short")
      else if hasSubstr pl (lc "/channel/") ∨ hasSubstr pl (lc "/@") then some (lc "channel")
      else some (lc "feed")
    else if platform = lc "twitter" then
      if hasSubstr pl (lc "/status/") then some (lc "tweet")
      else if hasSubstr pl (lc "/messages") then some (lc "dm")
      else some (lc "feed")
    else if platform = lc "facebook" then
      if hasSubstr pl (lc "/messages") ∨ hasSubstr pl (lc "/msg") then some (lc "dm")
      else if hasSubstr pl (lc "/groups/") then some (lc "group")
      else if hasSubstr pl (lc "/posts/") then some (lc "post")
      else some (lc "feed")
    else if platform = lc "google" ∨ platform = lc "bing" ∨ platform = lc "duckduckgo"
        ∨ platform = lc "yahoo" then
      some (lc "search_organic")
    else none

/-- The classification quintuple returned by `_classify_referer`. -/
structure RefClass where
  platform : List Char
  medium : List Char
  detail : Option (List Char)
  domain : Option (List Char)
  path : Option (List Char)
deriving DecidableEq

/-- The lookup chain of `_classify_referer` on the already-parsed pieces:
`fullDomain` is the lowercased netloc, `domain` the netloc after
`.lstrip("www.")`, `path` the parsed path. -/
def classify_referer_parsed (fullDomain domain path : List Char) : RefClass :=
  match DOMAIN_TO_PLATFORM.find? (fun e => e.1 = fullDomain) with
  | some e =>
    { platform := e.2.1, medium := e.2.2, detail := extract_source_detail e.2.1 path,
      domain := some fullDomain, path := some path }
  | none =>
    match DOMAIN_TO_PLATFORM.find? (fun e => e.1 = domain) with
    | some e =>
      { platform := e.2.1, medium := e.2.2, detail := extract_source_detail e.2.1 path,
        domain := some fullDomain, path := some path }
    | none =>
      match DOMAIN_TO_PLATFORM.find? (fun e =>
          ('.' :: e.1).isSuffixOf domain || domain = e.1) with
      | some e =>
        { platform := e.2.1, medium := e.2.2,
          detail := extract_source_detail e.2.1 path,
          domain := some fullDomain, path := some path }
      | none =>
        if googleRegional domain then
          { platform := lc "google", medium := lc "search",
            detail := some (lc "search_organic"),
            domain := some fullDomain, path := some path }
        else
          { platform := lc "unknown", medium := lc "referral", detail := none,
            domain := some fullDomain, path := some path }

/-- `_classify_referer` (the `urlparse` call raises on none of the modeled
inputs, so the swallowed-exception branch is unreachable here). -/
def classify_referer (referer : List Char) : RefClass :=
  if referer.isEmpty then
    { platform := lc "direct", medium := lc "direct", detail := none,
      domain := none, path := none }
  else
    classify_referer_parsed (lowerS (urlparse referer).netloc)
      (lstripSet (lc "www.") (lowerS (urlparse referer).netloc))
      (urlparse referer).path

/-- The resolved source triple. -/
structure SourceTriple where
  platform : List Char
  medium : List Char
  detail : Option (List Char)
deriving DecidableEq

/-- Python `x or y` for an optional string against a default. -/
def pyOrDetail (o : Option (List Char)) (b : List Char) : List Char :=
  match o with
  | some v => if v.isEmpty then b else v
  | none => b

/-- Truthiness of an optional string (`None` and `""` are falsy). -/
def optTruthy (o : Option (List Char)) : Bool :=
  match o with
  | some v => !v.isEmpty
  | none => false

/-- The priority-cascade merge of `analyze_click` (priorities 1-7, before
the enrichment overlay).  The platform values carried by the click-id,
UTM and email tables are nonempty constants, so Python truthiness of those
optionals coincides with `isSome`. -/
def resolve_source (isInApp : Bool) (inAppPlat : Option (List Char)) (rc : RefClass)
    (cid : Option (List Char × List Char × List Char))
    (utm : Option (List Char × List Char × Option (List Char)))
    (isEmail : Bool) (emailName : Option (List Char))
    (sec : Option (List Char × List Char)) : SourceTriple :=
  if isInApp && optTruthy inAppPlat then
    { platform := inAppPlat.getD [], medium := lc "social",
      detail := some (pyOrDetail rc.detail (lc "in_app")) }
  else if rc.platform ≠ lc "direct" then
    { platform := rc.platform, medium := rc.medium, detail := rc.detail }
  else
    match cid with
    | some c => { platform := c.1, medium := c.2.1, detail := some c.2.2 }
    | none =>
      match utm with
      | some u => { platform := u.1, medium := u.2.1, detail := u.2.2 }
      | none =>
        if isEmail then
          { platform := emailName.getD [], medium := lc "email",
            detail := some (lc "link_scanner") }
        else
          match sec with
          | some sp =>
            if !sp.1.isEmpty && decide (sp.1 ≠ lc "same_origin")
                && decide (sp.1 ≠ lc "same_site") then
              { platform := sp.1, medium := sp.2, detail := some (lc "no_referrer") }
            else
              { platform := lc "direct", medium := lc "direct", detail := none }
          | none => { platform := lc "direct", medium := lc "direct", detail := none }

/-- The post-resolution enrichment overlay: upgrade `"unknown_external"`
to the click-id-derived platform and medium. -/
def apply_click_id_overlay (t : SourceTriple)
    (cid : Option (List Char × List Char × List Char)) : SourceTriple :=
  match cid with
  | some c =>
    if t.platform = lc "unknown_external" ∧ ¬ c.1.isEmpty then
      { platform := c.1, medium := c.2.1, detail := t.detail }
    else t
  | none => t

/-- The classification fields extracted by `analyze_click` (device and
language enrichment omitted, see the section comment). -/
structure ClickIntelligence where
  source_platform : List Char
  source_medium : List Char
  source_detail : Option (List Char)
  is_in_app_browser : Bool
  in_app_platform : Option (List Char)
  referer_domain : Option (List Char)
  referer_path : Option (List Char)
deriving DecidableEq

/-- `analyze_click` (classification part), including the overlay. -/
def analyze_click (user_agent referer : List Char)
    (headers query_params : List (List Char × List Char)) : ClickIntelligence :=
  let ia := detect_in_app_browser user_agent
  let rc := classify_referer referer
  let cid := detect_platform_click_ids query_params
  let utm := detect_utm_source query_params
  let em := detect_email_client user_agent
  let sec := classify_sec_fetch headers
  let t0 := resolve_source ia.1 ia.2 rc cid utm em.1 em.2 sec
  let t := apply_click_id_overlay t0 cid
  { source_platform := t.platform, source_medium := t.medium, source_detail := t.detail,
    is_in_app_browser := ia.1, in_app_platform := ia.2,
    referer_domain := rc.domain, referer_path := rc.path }

/-- `analyze_click` with the enrichment overlay removed (used to show the
overlay never changes the output). -/
def analyze_click_pre_overlay (user_agent referer : List Char)
    (headers query_params : List (List Char × List Char)) : ClickIntelligence :=
  let ia := detect_in_app_browser user_agent
  let rc := classify_referer referer
  let cid := detect_platform_click_ids query_params
  let utm := detect_utm_source query_params
  let em := detect_email_client user_agent
  let sec := classify_sec_fetch headers
  let t := resolve_source ia.1 ia.2 rc cid utm em.1 em.2 sec
  { source_platform := t.platform, source_medium := t.medium, source_detail := t.detail,
    is_in_app_browser := ia.1, in_app_platform := ia.2,
    referer_domain := rc.domain, referer_path := rc.path }

/-- An iPhone user agent carrying the Instagram in-app-browser signature. -/
def instaUA : List Char :=
  lc "Mozilla/5.0 (iPhone; CPU iPhone OS 17_0 like Mac OS X) AppleWebKit/605.1.15 (KHTML, like Gecko) Instagram 300.0.0.0"

/-- Claim C4: classifier cascade on four concrete requests.  (1) an
Instagram in-app user agent with no referer resolves to
(instagram, social); (2) a plain Chrome user agent with a TikTok video
referer and standard headers resolves to (tiktok, social, video); (3) no
special user agent or referer but a non-empty `fbclid` query parameter
resolves to facebook; (4) no signals at all resolves to direct. -/
theorem analyze_click_cascade_examples :
    ((analyze_click instaUA [] [] []).source_platform = lc "instagram"
      ∧ (analyze_click instaUA [] [] []).source_medium = lc "social")
    ∧ ((analyze_click chromeUA (lc "https://www.tiktok.com/@someone/video/123")
          baseHeaders []).source_platform = lc "tiktok"
      ∧ (analyze_click chromeUA (lc "https://www.tiktok.com/@someone/video/123")
          baseHeaders []).source_medium = lc "social"
      ∧ (analyze_click chromeUA (lc "https://www.tiktok.com/@someone/video/123")
          baseHeaders []).source_detail = some (lc "video"))
    ∧ (analyze_click chromeUA [] [] [(lc "fbclid", lc "abc123")]).source_platform
        = lc "facebook"
    ∧ (analyze_click [] [] [] []).source_platform = lc "direct" := by
  decide

theorem detect_platform_click_ids_platform (qp : List (List Char × List Char))
    (trip : List Char × List Char × List Char)
    (h : detect_platform_click_ids qp = some trip) :
    trip.1 ≠ lc "unknown_external" := by
  unfold detect_platform_click_ids at h
  by_cases hq : qp.isEmpty
  · rw [if_pos hq] at h
    exact absurd h (by simp)
  · rw [if_neg hq] at h
    rcases hf : CLICK_ID_TO_PLATFORM.find? (fun e => qTruthy qp e.1) with _ | e
    · rw [hf] at h
      exact absurd h (by simp)
    · rw [hf] at h
      simp only [Option.map] at h
      have hmem := List.mem_of_find?_eq_some hf
      have hall : ∀ x ∈ CLICK_ID_TO_PLATFORM, x.2.1 ≠ lc "unknown_external" := by decide
      have htr : trip
          = (e.2.1, e.2.2, if e.2.2 = lc "paid" then lc "paid" else lc "click_id") := by
        injection h with h4
        exact h4.symm
      rw [htr]
      exact hall e hmem

theorem detect_in_app_platform (ua p : List Char)
    (h : (detect_in_app_browser ua).2 = some p) : p ≠ lc "unknown_external" := by
  unfold detect_in_app_browser at h
  by_cases hq : ua.isEmpty
  · rw [if_pos hq] at h
    exact absurd h (by simp)
  · rw [if_neg hq] at h
    rcases hf : IN_APP_PATTERNS.find? (fun pr => pr.2.any (fun pt => reSearch pt ua))
      with _ | pr
    · rw [hf] at h
      exact absurd h (by simp)
    · rw [hf] at h
      have hmem := List.mem_of_find?_eq_some hf
      have hall : ∀ x ∈ IN_APP_PATTERNS, x.1 ≠ lc "unknown_external" := by decide
      have hp : p = pr.1 := by
        have h2 : (some pr.1 : Option (List Char)) = some p := h
        exact (Option.some.injEq _ _ ▸ h2).symm
      rw [hp]
      exact hall pr hmem

theorem classify_referer_parsed_platform_ne (fullDomain domain path : List Char) :
    (classify_referer_parsed fullDomain domain path).platform
      ≠ lc "unknown_external" := by
  unfold classify_referer_parsed
  have hall : ∀ x ∈ DOMAIN_TO_PLATFORM, x.2.1 ≠ lc "unknown_external" := by decide
  split
  · next e1 h1 => exact hall e1 (List.mem_of_find?_eq_some h1)
  · next h1 =>
    split
    · next e2 h2 => exact hall e2 (List.mem_of_find?_eq_some h2)
    · next h2 =>
      split
      · next e3 h3 => exact hall e3 (List.mem_of_find?_eq_some h3)
      · next h3 =>
        split
        · exact (by decide : lc "google" ≠ lc "unknown_external")
        · exact (by decide : lc "unknown" ≠ lc "unknown_external")

theorem classify_referer_platform_ne (referer : List Char) :
    (classify_referer referer).platform ≠ lc "unknown_external" := by
  unfold classify_referer
  by_cases hq : referer.isEmpty
  · rw [if_pos hq]
    decide
  · rw [if_neg hq]
    exact classify_referer_parsed_platform_ne _ _ _

theorem resolve_source_platform_ne (isInApp : Bool) (inAppPlat : Option (List Char))
    (rc : RefClass) (cid : Option (List Char × List Char × List Char))
    (utm : Option (List Char × List Char × Option (List Char)))
    (isEmail : Bool) (emailName : Option (List Char))
    (sec : Option (List Char × List Char)) (trip : List Char × List Char × List Char)
    (hcid : cid = some trip)
    (htrip : trip.1 ≠ lc "unknown_external")
    (hrc : rc.platform ≠ lc "unknown_external")
    (hia : ∀ p, inAppPlat = some p → p ≠ lc "unknown_external") :
    (resolve_source isInApp inAppPlat rc cid utm isEmail emailName sec).platform
      ≠ lc "unknown_external" := by
  subst hcid
  unfold resolve_source
  by_cases h1 : (isInApp && optTruthy inAppPlat) = true
  · rw [if_pos h1]
    rcases inAppPlat with _ | p
    · exact absurd h1 (by simp [optTruthy])
    · exact hia p rfl
  · rw [if_neg h1]
    by_cases h2 : rc.platform ≠ lc "direct"
    · rw [if_pos h2]
      exact hrc
    · rw [if_neg h2]
      exact htrip

theorem apply_click_id_overlay_eq (t : SourceTriple)
    (cid : Option (List Char × List Char × List Char))
    (h : cid ≠ none → t.platform ≠ lc "unknown_external") :
    apply_click_id_overlay t cid = t := by
  unfold apply_click_id_overlay
  cases cid with
  | none => rfl
  | some c =>
    show (if t.platform = lc "unknown_external" ∧ ¬ c.1.isEmpty = true then
        ({ platform := c.1, medium := c.2.1, detail := t.detail } : SourceTriple)
      else t) = t
    rw [if_neg]
    intro hcon
    exact h (by simp) hcon.1

/-- Claim C10: whenever a platform click-id query parameter with a
non-empty value is present, the resolved `source_platform` is never
`"unknown_external"` (click-id detection at priority 3 always resolves
before the Sec-Fetch-Site stage at priority 6); consequently the
post-resolution overlay that upgrades `"unknown_external"` is unreachable
and the classification output never differs from the overlay-free one. -/
theorem click_id_never_unknown_external (ua referer : List Char)
    (headers qp : List (List Char × List Char)) :
    (detect_platform_click_ids qp ≠ none →
      (analyze_click ua referer headers qp).source_platform ≠ lc "unknown_external")
    ∧ analyze_click ua referer headers qp
        = analyze_click_pre_overlay ua referer headers qp := by
  have hkey : ∀ trip, detect_platform_click_ids qp = some trip →
      (resolve_source (detect_in_app_browser ua).1 (detect_in_app_browser ua).2
          (classify_referer referer) (detect_platform_click_ids qp)
          (detect_utm_source qp) (detect_email_client ua).1
          (detect_email_client ua).2 (classify_sec_fetch headers)).platform
        ≠ lc "unknown_external" := by
    intro trip htrip
    exact resolve_source_platform_ne _ _ _ _ _ _ _ _ trip htrip
      (detect_platform_click_ids_platform qp trip htrip)
      (classify_referer_platform_ne referer)
      (fun p hp => detect_in_app_platform ua p hp)
  have hid : apply_click_id_overlay
      (resolve_source (detect_in_app_browser ua).1 (detect_in_app_browser ua).2
        (classify_referer referer) (detect_platform_click_ids qp)
        (detect_utm_source qp) (detect_email_client ua).1
        (detect_email_client ua).2 (classify_sec_fetch headers))
      (detect_platform_click_ids qp)
      = resolve_source (detect_in_app_browser ua).1 (detect_in_app_browser ua).2
          (classify_referer referer) (detect_platform_click_ids qp)
          (detect_utm_source qp) (detect_email_client ua).1
          (detect_email_client ua).2 (classify_sec_fetch headers) := by
    apply apply_click_id_overlay_eq
    intro hne
    rcases ho : detect_platform_click_ids qp with _ | trip
    · exact absurd ho hne
    · have h2 := hkey trip ho
      rw [ho] at h2
      exact h2
  constructor
  · intro hne
    rcases ho : detect_platform_click_ids qp with _ | trip
    · exact absurd ho hne
    · have h2 := hkey trip ho
      show (apply_click_id_overlay
        (resolve_source (detect_in_app_browser ua).1 (detect_in_app_browser ua).2
          (classify_referer referer) (detect_platform_click_ids qp)
          (detect_utm_source qp) (detect_email_client ua).1
          (detect_email_client ua).2 (classify_sec_fetch headers))
        (detect_platform_click_ids qp)).platform ≠ lc "unknown_external"
      rw [hid]
      exact h2
  · show ClickIntelligence.mk _ _ _ _ _ _ _ = ClickIntelligence.mk _ _ _ _ _ _ _
    simp only [analyze_click, analyze_click_pre_overlay, hid]

/-- Claim C10 witness: a concrete request carrying `fbclid` whose
classification is overlay-free and not `"unknown_external"`. -/
theorem click_id_never_unknown_external_witness :
    (analyze_click [] [] [(lc "sec-fetch-site", lc "cross-site")]
        [(lc "fbclid", lc "zz")]).source_platform ≠ lc "unknown_external" :=
  (click_id_never_unknown_external [] [] [(lc "sec-fetch-site", lc "cross-site")]
      [(lc "fbclid", lc "zz")]).1 (by decide)

/-- Claim C9 counterexample: the referer "https://www.tiktok.com" resolves
to the recognized social platform tiktok with an empty path, yet its
source_detail is `none`, not "bio" (contradicting the claimed empty-path
default); `_extract_source_detail` returns `None` on every empty path
before any platform branch can run. -/
theorem classify_referer_empty_path_no_bio :
    (classify_referer (lc "https://www.tiktok.com")).platform = lc "tiktok"
    ∧ (classify_referer (lc "https://www.tiktok.com")).medium = lc "social"
    ∧ (classify_referer (lc "https://www.tiktok.com")).path = some []
    ∧ (classify_referer (lc "https://www.tiktok.com")).detail = none
    ∧ (classify_referer (lc "https://www.tiktok.com")).detail ≠ some (lc "bio") := by
  decide

/-- Claim C9 (amended): the placement defaults of the classifier.  For the
five platforms with placement branches (instagram, tiktok, youtube,
twitter, facebook), a non-empty referer path matching none of the
platform's placement substrings yields the generic detail "feed" — for
instagram the path "/" instead yields "bio" — while an EMPTY path yields
no detail at all (for every platform, so never "bio"), and platforms
without a placement branch (everything outside the five above and the
four search engines) also yield no detail. -/
theorem extract_source_detail_defaults (path : List Char) (hne : path ≠ []) :
    (hasSubstr (lowerS path) (lc "/stories/") = false →
      hasSubstr (lowerS path) (lc "/p/") = false →
      hasSubstr (lowerS path) (lc "/reel/") = false →
      hasSubstr (lowerS path) (lc "/direct/") = false →
      lowerS path ≠ lc "/" →
      extract_source_detail (lc "instagram") path = some (lc "feed"))
    ∧ extract_source_detail (lc "instagram") (lc "/") = some (lc "bio")
    ∧ (hasSubstr (lowerS path) (lc "/video/") = false →
      hasSubstr (lowerS path) (lc "/@") = false →
      extract_source_detail (lc "tiktok") path = some (lc "feed"))
    ∧ (hasSubstr (lowerS path) (lc "/watch") = false →
      hasSubstr (lowerS path) (lc "/shorts/") = false →
      hasSubstr (lowerS path) (lc "/channel/") = false →
      hasSubstr (lowerS path) (lc "/@") = false →
      extract_source_detail (lc "youtube") path = some (lc "feed"))
    ∧ (hasSubstr (lowerS path) (lc "/status/") = false →
      hasSubstr (lowerS path) (lc "/messages") = false →
      extract_source_detail (lc "twitter") path = some (lc "feed"))
    ∧ (hasSubstr (lowerS path) (lc "/messages") = false →
      hasSubstr (lowerS path) (lc "/msg") = false →
      hasSubstr (lowerS path) (lc "/groups/") = false →
      hasSubstr (lowerS path) (lc "/posts/") = false →
      extract_source_detail (lc "facebook") path = some (lc "feed"))
    ∧ (∀ platform, extract_source_detail platform [] = none)
    ∧ (∀ platform,
      platform ∉ [lc "instagram", lc "tiktok", lc "youtube", lc "twitter",
        lc "facebook", lc "google", lc "bing", lc "duckduckgo", lc "yahoo"] →
      extract_source_detail platform path = none) := by
  have hpe : path.isEmpty = false := by
    cases path with
    | nil => exact absurd rfl hne
    | cons c t => rfl
  have hlpe : lowerS path ≠ [] := by
    cases path with
    | nil => exact absurd rfl hne
    | cons c t => simp [lowerS]
  refine ⟨?_, by decide, ?_, ?_, ?_, ?_, fun p => rfl, ?_⟩
  · intro h1 h2 h3 h4 h5
    unfold extract_source_detail
    simp +decide [hpe, h1, h2, h3, h4, h5, hlpe]
  · intro h1 h2
    unfold extract_source_detail
    simp +decide [hpe, h1, h2]
  · intro h1 h2 h3 h4
    unfold extract_source_detail
    simp +decide [hpe, h1, h2, h3, h4]
  · intro h1 h2
    unfold extract_source_detail
    simp +decide [hpe, h1, h2]
  · intro h1 h2 h3 h4
    unfold extract_source_detail
    simp +decide [hpe, h1, h2, h3, h4]
  · intro p hp
    simp only [List.mem_cons, List.not_mem_nil, or_false, not_or] at hp
    obtain ⟨n1, n2, n3, n4, n5, n6, n7, n8, n9⟩ := hp
    unfold extract_source_detail
    simp [hpe, n1, n2, n3, n4, n5, n6, n7, n8, n9]

/-- Claim C9 (amended) witness: path "/about" gives "feed" for instagram
and no detail for pinterest. -/
theorem extract_source_detail_defaults_witness :
    extract_source_detail (lc "instagram") (lc "/about") = some (lc "feed")
    ∧ extract_source_detail (lc "pinterest") (lc "/about") = none := by
  have h := extract_source_detail_defaults (lc "/about") (by decide)
  exact ⟨h.1 (by decide) (by decide) (by decide) (by decide) (by decide),
    h.2.2.2.2.2.2.2 (lc "pinterest") (by decide)⟩

/-!
## Parameter Injection Engine (src/app/core/param_injection.py)

Python dictionaries and the persisted/URL parameter sets are ordered
association lists with insert-or-replace assignment (`dset`), first-match
lookup (`dget`) and `dict.update` (`dUpdate`).  URL percent-encoding is
not modeled: `parse_qs`/`urlencode` are embedded on the literal key/value
characters, which agrees with Python wherever keys and values contain no
characters needing quoting (true of every input used in the claims).
-/

/-- `utm_content` sanitization, first transform: single-character
replacement (`str.replace` with one-character pattern and replacement). -/
def replaceChar (a b : Char) (s : List Char) : List Char :=
  s.map (fun c => if c = a then b else c)

/-- `s.replace("&", "__")`. -/
def replaceAmp (s : List Char) : List Char :=
  s.foldr (fun c acc => if c = '&' then '_' :: '_' :: acc else c :: acc) []

/-- `s.replace("___", "__")`: one non-overlapping left-to-right pass. -/
def replaceTriple : List Char → List Char
  | '_' :: '_' :: '_' :: rest => '_' :: '_' :: replaceTriple rest
  | c :: rest => c :: replaceTriple rest
  | [] => []

/-- Is a run of three underscores present (equivalently, is
`s.replace("___", "__")` productive)? -/
def hasTriple : List Char → Bool
  | '_' :: '_' :: '_' :: _ => true
  | _ :: rest => hasTriple rest
  | [] => false

/-- The source's collapse loop: `while "__" in s`, replace `"___"` by
`"__"`, stop at a fixpoint.  Fueled; each productive pass strictly
shrinks the string, so fuel `s.length` reproduces the Python loop. -/
def collapseLoop : Nat → List Char → List Char
  | 0, s => s
  | fuel + 1, s =>
    if hasSubstr s (lc "__") then
      if replaceTriple s = s then s else collapseLoop fuel (replaceTriple s)
    else s

/-- `_sanitize_campaign`'s underscore-collapsing loop. -/
def collapseUnderscores (s : List Char) : List Char := collapseLoop s.length s

/-- Declarative collapse per the specification: every maximal run of 3 or
more underscores becomes exactly 2 (`n` counts pending underscores). -/
def collapseRunsAux : Nat → List Char → List Char
  | n, [] => List.replicate (min n 2) '_'
  | n, c :: rest =>
    if c = '_' then collapseRunsAux (n + 1) rest
    else List.replicate (min n 2) '_' ++ c :: collapseRunsAux 0 rest

/-- Collapse every run of 3+ underscores down to 2 (specification wording). -/
def collapseRuns (s : List Char) : List Char := collapseRunsAux 0 s

/-- Final truncation of `_sanitize_campaign`. -/
def sanitize_trim (s : List Char) : List Char :=
  if 180 < s.length then s.take 180 else s

/-- `_sanitize_campaign` after the leading-slash strip: empty → "home",
else the four replacements, the collapse loop and the 180-char trim. -/
def sanitize_pipeline (stripped : List Char) : List Char :=
  if stripped.isEmpty then lc "home"
  else
    sanitize_trim (collapseUnderscores (replaceChar '=' '-' (replaceAmp
      (replaceChar '?' '~' (replaceChar '/' '_' stripped)))))

/-- The raw `path + "?" + query` string `_sanitize_campaign` starts from. -/
def rawPathQuery (u : UrlParts) : List Char :=
  u.path ++ (if u.query.isEmpty then [] else '?' :: u.query)

/-- `_sanitize_campaign`. -/
def sanitize_campaign (dest_url : List Char) : List Char :=
  sanitize_pipeline (lstripSet (lc "/") (rawPathQuery (urlparse dest_url)))

/-- The sanitization algorithm exactly as the specification words it:
strip the leading slashes; an empty path+query produces the literal
"home"; otherwise replace, collapse every run of 3+ underscores down to
2, and truncate to 180 characters. -/
def sanitizeSpec (pathQuery : List Char) : List Char :=
  if (pathQuery.dropWhile (fun c => c = '/')).isEmpty then lc "home"
  else
    (collapseRuns (replaceChar '=' '-' (replaceAmp (replaceChar '?' '~'
      (replaceChar '/' '_' (pathQuery.dropWhile (fun c => c = '/'))))))).take 180

theorem replaceTriple_length_le (s : List Char) :
    (replaceTriple s).length ≤ s.length := by
  induction s using replaceTriple.induct with
  | case1 rest ih =>
    simp only [replaceTriple, List.length_cons]
    omega
  | case2 c rest h ih =>
    rw [replaceTriple.eq_2 c rest h]
    simp only [List.length_cons]
    omega
  | case3 => simp [replaceTriple]

theorem replaceTriple_of_no_triple (s : List Char) (h : hasTriple s = false) :
    replaceTriple s = s := by
  induction s using replaceTriple.induct with
  | case1 rest ih =>
    exact absurd h (by simp [hasTriple])
  | case2 c rest hside ih =>
    rw [replaceTriple.eq_2 c rest hside]
    rw [hasTriple.eq_2 c rest hside] at h
    rw [ih h]
  | case3 => rfl

theorem replaceTriple_length_lt (s : List Char) (h : hasTriple s = true) :
    (replaceTriple s).length < s.length := by
  induction s using replaceTriple.induct with
  | case1 rest ih =>
    have := replaceTriple_length_le rest
    simp only [replaceTriple, List.length_cons]
    omega
  | case2 c rest hside ih =>
    rw [hasTriple.eq_2 c rest hside] at h
    rw [replaceTriple.eq_2 c rest hside]
    simp only [List.length_cons]
    exact Nat.succ_lt_succ (ih h)
  | case3 => exact absurd h (by simp [hasTriple])

theorem hasTriple_of_ne (s : List Char) (h : replaceTriple s ≠ s) :
    hasTriple s = true := by
  by_cases ht : hasTriple s = true
  · exact ht
  · have := replaceTriple_of_no_triple s (by simpa using ht)
    exact absurd this h

theorem collapseRunsAux_ge_two (s : List Char) : ∀ n m : Nat, 2 ≤ n → 2 ≤ m →
    collapseRunsAux n s = collapseRunsAux m s := by
  induction s with
  | nil =>
    intro n m hn hm
    simp only [collapseRunsAux]
    rw [min_eq_right hn, min_eq_right hm]
  | cons c rest ih =>
    intro n m hn hm
    simp only [collapseRunsAux]
    by_cases hc : c = '_'
    · rw [if_pos hc, if_pos hc]
      exact ih (n + 1) (m + 1) (by omega) (by omega)
    · rw [if_neg hc, if_neg hc]
      rw [min_eq_right hn, min_eq_right hm]

theorem collapseRunsAux_replaceTriple (s : List Char) : ∀ n : Nat,
    collapseRunsAux n (replaceTriple s) = collapseRunsAux n s := by
  induction s using replaceTriple.induct with
  | case1 rest ih =>
    intro n
    show collapseRunsAux n ('_' :: '_' :: replaceTriple rest)
      = collapseRunsAux n ('_' :: '_' :: '_' :: rest)
    simp only [collapseRunsAux, if_pos rfl]
    rw [ih (n + 2)]
    exact collapseRunsAux_ge_two rest (n + 2) (n + 3) (by omega) (by omega)
  | case2 c rest hside ih =>
    intro n
    rw [replaceTriple.eq_2 c rest hside]
    by_cases hc : c = '_'
    · simp only [collapseRunsAux, if_pos hc]
      exact ih (n + 1)
    · simp only [collapseRunsAux, if_neg hc]
      rw [ih 0]
  | case3 =>
    intro n
    rfl

theorem hasTriple_cons (c : Char) (rest : List Char) (h : hasTriple rest = true) :
    hasTriple (c :: rest) = true := by
  rcases hd : c :: rest with _ | ⟨c1, t1⟩
  · simp at hd
  · injection hd with h1 h2
    subst h1
    subst h2
    rcases rest with _ | ⟨c2, t2⟩
    · simp [hasTriple] at h
    · rcases t2 with _ | ⟨c3, t3⟩
      · simp [hasTriple] at h
      · by_cases htr : c = '_' ∧ c2 = '_' ∧ c3 = '_'
        · obtain ⟨e1, e2, e3⟩ := htr
          subst e1; subst e2; subst e3
          rfl
        · have hside : ∀ (r2 : List Char), c = '_' →
              c2 :: c3 :: t3 = '_' :: '_' :: r2 → False := by
            intro r2 h1 h2
            injection h2 with g1 g2
            injection g2 with g2a g2b
            exact htr ⟨h1, g1, g2a⟩
          rw [hasTriple.eq_2 c (c2 :: c3 :: t3) hside]
          exact h

theorem hasTriple_append (xs ys : List Char) (h : hasTriple ys = true) :
    hasTriple (xs ++ ys) = true := by
  induction xs with
  | nil => simpa using h
  | cons c t ih => exact hasTriple_cons c (t ++ ys) ih

theorem hasSubstr_of_hasTriple (s : List Char) (h : hasTriple s = true) :
    hasSubstr s (lc "__") = true := by
  induction s using hasTriple.induct with
  | case1 rest =>
    simp [hasSubstr, List.isPrefixOf, lc]
  | case2 c rest hside ih =>
    rw [hasTriple.eq_2 c rest hside] at h
    unfold hasSubstr
    rw [ih h, Bool.or_true]
  | case3 => simp [hasTriple] at h

theorem collapseRunsAux_no_triple (s : List Char) : ∀ n : Nat, n ≤ 2 →
    hasTriple (List.replicate n '_' ++ s) = false →
    collapseRunsAux n s = List.replicate n '_' ++ s := by
  induction s with
  | nil =>
    intro n hn h
    simp only [collapseRunsAux, List.append_nil]
    rw [min_eq_left hn]
  | cons c rest ih =>
    intro n hn h
    by_cases hc : c = '_'
    · subst hc
      have hrepl : List.replicate n '_' ++ '_' :: rest
          = List.replicate (n + 1) '_' ++ rest := by
        rw [List.replicate_succ']
        simp
      have hn1 : n + 1 ≤ 2 := by
        rcases Nat.lt_or_ge n 2 with hlt | hge
        · omega
        · exfalso
          have hn2 : n = 2 := by omega
          subst hn2
          have : hasTriple (List.replicate 2 '_' ++ '_' :: rest) = true := by
            show hasTriple ('_' :: '_' :: '_' :: rest) = true
            rfl
          rw [this] at h
          exact absurd h (by simp)
      have h2 : hasTriple (List.replicate (n + 1) '_' ++ rest) = false := by
        rw [← hrepl]
        exact h
      show (if ('_' : Char) = '_' then collapseRunsAux (n + 1) rest
          else List.replicate (min n 2) '_' ++ '_' :: collapseRunsAux 0 rest)
        = List.replicate n '_' ++ '_' :: rest
      rw [if_pos rfl, ih (n + 1) hn1 h2, hrepl]
    · simp only [collapseRunsAux, if_neg hc]
      rw [min_eq_left hn]
      have hrest : hasTriple rest = false := by
        by_cases hr : hasTriple rest = true
        · have h1 : hasTriple (c :: rest) = true := hasTriple_cons c rest hr
          have h2 : hasTriple (List.replicate n '_' ++ c :: rest) = true :=
            hasTriple_append _ _ h1
          rw [h2] at h
          exact absurd h (by simp)
        · simpa using hr
      rw [ih 0 (by omega) (by simpa using hrest)]
      simp

theorem collapseLoop_eq_collapseRuns : ∀ (fuel : Nat) (s : List Char),
    s.length ≤ fuel → collapseLoop fuel s = collapseRuns s := by
  intro fuel
  induction fuel with
  | zero =>
    intro s hs
    have : s = [] := by
      cases s with
      | nil => rfl
      | cons c t => simp at hs
    subst this
    rfl
  | succ f ih =>
    intro s hs
    show (if hasSubstr s (lc "__") then
        if replaceTriple s = s then s else collapseLoop f (replaceTriple s)
      else s) = collapseRuns s
    by_cases hd : hasSubstr s (lc "__") = true
    · rw [if_pos hd]
      by_cases heq : replaceTriple s = s
      · rw [if_pos heq]
        have hnt : hasTriple s = false := by
          by_cases ht : hasTriple s = true
          · have := replaceTriple_length_lt s ht
            rw [heq] at this
            omega
          · simpa using ht
        have := collapseRunsAux_no_triple s 0 (by omega) (by simpa using hnt)
        unfold collapseRuns
        rw [this]
        simp
      · rw [if_neg heq]
        have ht : hasTriple s = true := hasTriple_of_ne s heq
        have hlt : (replaceTriple s).length < s.length := replaceTriple_length_lt s ht
        rw [ih (replaceTriple s) (by omega)]
        unfold collapseRuns
        exact collapseRunsAux_replaceTriple s 0
    · rw [if_neg hd]
      have hnt : hasTriple s = false := by
        by_cases ht : hasTriple s = true
        · exact absurd (hasSubstr_of_hasTriple s ht) hd
        · simpa using ht
      have := collapseRunsAux_no_triple s 0 (by omega) (by simpa using hnt)
      unfold collapseRuns
      rw [this]
      simp

theorem collapseUnderscores_eq_collapseRuns (s : List Char) :
    collapseUnderscores s = collapseRuns s :=
  collapseLoop_eq_collapseRuns s.length s (le_refl _)

theorem sanitize_trim_eq_take (s : List Char) : sanitize_trim s = s.take 180 := by
  unfold sanitize_trim
  by_cases h : 180 < s.length
  · rw [if_pos h]
  · rw [if_neg h]
    exact (List.take_of_length_le (by omega)).symm

theorem lstripSet_slash (s : List Char) :
    lstripSet (lc "/") s = s.dropWhile (fun c => c = '/') := by
  unfold lstripSet
  congr 1
  funext c
  simp [lc, List.contains]

/-- Claim C7: for every destination URL, `utm_content` is obtained from the
URL's path+query exactly as the specification words it (strip the leading
slashes, the four character replacements, collapse every run of 3+
underscores down to 2, truncate to 180 characters, empty path+query
producing the literal "home"); and the concrete path+query
"/summer/sale?id=5&ref=ig" sanitizes to "summer_sale~id-5__ref-ig". -/
theorem utm_content_sanitization :
    (∀ dest_url : List Char,
      sanitize_campaign dest_url = sanitizeSpec (rawPathQuery (urlparse dest_url)))
    ∧ sanitizeSpec (lc "/summer/sale?id=5&ref=ig") = lc "summer_sale~id-5__ref-ig"
    ∧ sanitize_campaign (lc "https://shop.example/summer/sale?id=5&ref=ig")
        = lc "summer_sale~id-5__ref-ig" := by
  refine ⟨?_, ?_, ?_⟩
  · intro dest_url
    unfold sanitize_campaign sanitize_pipeline sanitizeSpec
    rw [lstripSet_slash]
    by_cases he : ((rawPathQuery (urlparse dest_url)).dropWhile (fun c => c = '/')).isEmpty
    · rw [if_pos he, if_pos he]
    · rw [if_neg he, if_neg he]
      rw [collapseUnderscores_eq_collapseRuns, sanitize_trim_eq_take]
  · have h := collapseLoop_eq_collapseRuns
    show _ = _
    rw [show sanitizeSpec (lc "/summer/sale?id=5&ref=ig")
        = (collapseRuns (replaceChar '=' '-' (replaceAmp (replaceChar '?' '~'
            (replaceChar '/' '_' ((lc "/summer/sale?id=5&ref=ig").dropWhile
              (fun c => c = '/'))))))).take 180 from by rfl]
    decide
  · rw [show sanitize_campaign (lc "https://shop.example/summer/sale?id=5&ref=ig")
        = sanitize_pipeline (lstripSet (lc "/")
            (rawPathQuery (urlparse (lc "https://shop.example/summer/sale?id=5&ref=ig"))))
          from rfl]
    decide

/-- Python dict assignment `d[k] = v`: replace in place, else append. -/
def dset (m : List (List Char × List Char)) (k v : List Char) :
    List (List Char × List Char) :=
  match m with
  | [] => [(k, v)]
  | e :: t => if e.1 = k then (k, v) :: t else e :: dset t k v

/-- Dict lookup `d[k]` / `d.get(k)`. -/
def dget (m : List (List Char × List Char)) (k : List Char) : Option (List Char) :=
  match m with
  | [] => none
  | e :: t => if e.1 = k then some e.2 else dget t k

/-- `d.update(other)`: apply the other dict's items in order. -/
def dUpdate (m other : List (List Char × List Char)) :
    List (List Char × List Char) :=
  other.foldl (fun acc e => dset acc e.1 e.2) m

theorem dget_dset_self (m : List (List Char × List Char)) (k v : List Char) :
    dget (dset m k v) k = some v := by
  induction m with
  | nil => simp [dset, dget]
  | cons e t ih =>
    unfold dset
    by_cases he : e.1 = k
    · rw [if_pos he]
      simp [dget]
    · rw [if_neg he]
      unfold dget
      rw [if_neg he]
      exact ih

theorem dget_dset_ne (m : List (List Char × List Char)) (k2 v k : List Char)
    (hne : ¬ k2 = k) : dget (dset m k2 v) k = dget m k := by
  induction m with
  | nil => simp [dset, dget, hne]
  | cons e t ih =>
    unfold dset
    by_cases he : e.1 = k2
    · rw [if_pos he]
      unfold dget
      rw [if_neg hne, if_neg (he ▸ hne)]
    · rw [if_neg he]
      unfold dget
      by_cases hek : e.1 = k
      · rw [if_pos hek, if_pos hek]
      · rw [if_neg hek, if_neg hek]
        exact ih

theorem dget_eq_none_keys (m : List (List Char × List Char)) (k : List Char)
    (h : dget m k = none) : ∀ e ∈ m, e.1 ≠ k := by
  induction m with
  | nil => intro e he; simp at he
  | cons e t ih =>
    intro x hx
    unfold dget at h
    by_cases he : e.1 = k
    · rw [if_pos he] at h
      exact absurd h (by simp)
    · rw [if_neg he] at h
      rcases List.mem_cons.mp hx with h1 | h1
      · rw [h1]; exact he
      · exact ih h x h1

theorem dget_dUpdate_not_mem : ∀ (ov m : List (List Char × List Char)) (k : List Char),
    (∀ e ∈ ov, e.1 ≠ k) → dget (dUpdate m ov) k = dget m k := by
  intro ov
  induction ov with
  | nil => intro m k h; rfl
  | cons e t ih =>
    intro m k h
    show dget (dUpdate (dset m e.1 e.2) t) k = dget m k
    rw [ih (dset m e.1 e.2) k (fun x hx => h x (List.mem_cons_of_mem e hx))]
    exact dget_dset_ne m e.1 e.2 k (h e (List.mem_cons_self e t))

theorem dget_dUpdate_mem : ∀ (ov m : List (List Char × List Char)) (k v : List Char),
    (ov.map Prod.fst).Nodup → dget ov k = some v →
    dget (dUpdate m ov) k = some v := by
  intro ov
  induction ov with
  | nil =>
    intro m k v hnd h
    exact absurd h (by simp [dget])
  | cons e t ih =>
    intro m k v hnd h
    rw [List.map_cons, List.nodup_cons] at hnd
    obtain ⟨hnotin, hnd2⟩ := hnd
    show dget (dUpdate (dset m e.1 e.2) t) k = some v
    by_cases hek : e.1 = k
    · have hv : v = e.2 := by
        unfold dget at h
        rw [if_pos hek] at h
        exact (Option.some.injEq _ _ ▸ h).symm
      have hkt : ∀ x ∈ t, x.1 ≠ k := by
        intro x hx hcon
        exact hnotin (List.mem_map.mpr ⟨x, hx, hcon.trans hek.symm⟩)
      rw [dget_dUpdate_not_mem t _ k hkt, hek, dget_dset_self, hv]
    · have h2 : dget t k = some v := by
        unfold dget at h
        rw [if_neg hek] at h
        exact h
      exact ih (dset m e.1 e.2) k v hnd2 h2

/-- `PLATFORM_SOURCE`, in source order. -/
def PLATFORM_SOURCE : List (List Char × List Char) :=
  [(lc "instagram", lc "instagram"), (lc "tiktok", lc "tiktok"),
   (lc "youtube", lc "youtube"), (lc "twitter", lc "x"),
   (lc "facebook", lc "facebook"), (lc "linkedin", lc "linkedin"),
   (lc "pinterest", lc "pinterest"), (lc "snapchat", lc "snapchat"),
   (lc "reddit", lc "reddit"), (lc "threads", lc "threads"),
   (lc "telegram", lc "telegram"), (lc "whatsapp", lc "whatsapp"),
   (lc "discord", lc "discord"), (lc "google", lc "google"),
   (lc "bing", lc "bing"), (lc "duckduckgo", lc "duckduckgo"),
   (lc "gmail", lc "gmail"), (lc "outlook", lc "outlook"),
   (lc "yahoo_mail", lc "yahoo_mail"), (lc "linktree", lc "linktree"),
   (lc "direct", lc "direct")]

/-- `PLATFORM_PASSTHROUGH_PARAMS` (a Python set; listed here in source
order, which only fixes the iteration order of `extract_platform_params`). -/
def PLATFORM_PASSTHROUGH_PARAMS : List (List Char) :=
  [lc "fbclid", lc "ttclid", lc "ScCid", lc "gclid", lc "wbraid", lc "gbraid",
   lc "epik", lc "li_fat_id", lc "msclkid", lc "twclid", lc "rdt_cid"]

/-- `extract_platform_params`. -/
def extract_platform_params (query_params : List (List Char × List Char)) :
    List (List Char × List Char) :=
  PLATFORM_PASSTHROUGH_PARAMS.foldl (fun acc k =>
    match hget query_params k with
    | some v => dset acc k v
    | none => acc) []

/-- `_encode_referrer`. -/
def encode_referrer (r : List Char) : List Char :=
  if r.isEmpty then [] else r.take 500

/-- Python `a or b` on two optional strings. -/
def pyOrOpt (a b : Option (List Char)) : Option (List Char) :=
  match a with
  | some v => if v.isEmpty then b else some v
  | none => b

/-- Rule 1 of `build_tracking_params`: the always-authored UTM block. -/
def btp_rule1 (source_platform dest_url referrer : List Char)
    (request_headers : Option (List (List Char × List Char))) :
    List (List Char × List Char) :=
  let utm_source :=
    match dget PLATFORM_SOURCE source_platform with
    | some v => v
    | none => if source_platform.isEmpty then lc "unknown" else source_platform
  let p := dset [] (lc "utm_source") utm_source
  let p := dset p (lc "utm_medium") (lc "creator")
  let p := dset p (lc "utm_content") (sanitize_campaign dest_url)
  if !referrer.isEmpty then dset p (lc "utm_campaign") (encode_referrer referrer)
  else
    match pyOrOpt (hget (request_headers.getD []) (lc "sec-fetch-site"))
        (hget (request_headers.getD []) (lc "Sec-Fetch-Site")) with
    | some v => if v.isEmpty then p else dset p (lc "utm_campaign") (lowerS v)
    | none => p

/-- Rule 4 of `build_tracking_params`: the mobile-attribution block. -/
def add_mobile_attribution (p : List (List Char × List Char))
    (click_id source_platform creator_handle campaign_slug : List Char) :
    List (List Char × List Char) :=
  let p := dset p (lc "pid") (lc "stackfluence_" ++ source_platform)
  let p := dset p (lc "c") campaign_slug
  let p := dset p (lc "af_sub1") creator_handle
  let p := dset p (lc "af_sub2") click_id
  let p := dset p (lc "af_sub3") []
  let p := dset p (lc "~channel") source_platform
  let p := dset p (lc "~campaign") campaign_slug
  let p := dset p (lc "~feature") (lc "influencer")
  let p := dset p (lc "~tags") creator_handle
  let p := dset p (lc "adj_tracker") click_id
  let p := dset p (lc "adj_campaign") campaign_slug
  let p := dset p (lc "adj_creative") creator_handle
  let p := dset p (lc "ko_click_id") click_id
  dset p (lc "singular_click_id") click_id

/-- The keys written by the mobile-attribution block. -/
def MOBILE_ATTRIBUTION_KEYS : List (List Char) :=
  [lc "pid", lc "c", lc "af_sub1", lc "af_sub2", lc "af_sub3", lc "~channel",
   lc "~campaign", lc "~feature", lc "~tags", lc "adj_tracker", lc "adj_campaign",
   lc "adj_creative", lc "ko_click_id", lc "singular_click_id"]

theorem dget_add_mobile (p : List (List Char × List Char))
    (a b c d k : List Char) (h : k ∉ MOBILE_ATTRIBUTION_KEYS) :
    dget (add_mobile_attribution p a b c d) k = dget p k := by
  simp only [MOBILE_ATTRIBUTION_KEYS, List.mem_cons, List.not_mem_nil, or_false,
    not_or] at h
  obtain ⟨n1, n2, n3, n4, n5, n6, n7, n8, n9, n10, n11, n12, n13, n14⟩ := h
  simp only [add_mobile_attribution]
  rw [dget_dset_ne _ _ _ _ (fun hcon => n14 hcon.symm),
    dget_dset_ne _ _ _ _ (fun hcon => n13 hcon.symm),
    dget_dset_ne _ _ _ _ (fun hcon => n12 hcon.symm),
    dget_dset_ne _ _ _ _ (fun hcon => n11 hcon.symm),
    dget_dset_ne _ _ _ _ (fun hcon => n10 hcon.symm),
    dget_dset_ne _ _ _ _ (fun hcon => n9 hcon.symm),
    dget_dset_ne _ _ _ _ (fun hcon => n8 hcon.symm),
    dget_dset_ne _ _ _ _ (fun hcon => n7 hcon.symm),
    dget_dset_ne _ _ _ _ (fun hcon => n6 hcon.symm),
    dget_dset_ne _ _ _ _ (fun hcon => n5 hcon.symm),
    dget_dset_ne _ _ _ _ (fun hcon => n4 hcon.symm),
    dget_dset_ne _ _ _ _ (fun hcon => n3 hcon.symm),
    dget_dset_ne _ _ _ _ (fun hcon => n2 hcon.symm),
    dget_dset_ne _ _ _ _ (fun hcon => n1 hcon.symm)]

/-- `build_tracking_params`, assembled from its five rules in source
order (`if platform_params:` and `if param_overrides:` treat the empty
dict like `None`; `dUpdate` with an empty dict is the identity, so both
are modeled by the `Option` match). -/
def build_tracking_params (click_id source_platform dest_url referrer
    creator_handle campaign_slug : List Char) (asset_slug : Option (List Char))
    (param_overrides : Option (List (List Char × List Char)))
    (has_app_destination : Bool)
    (platform_params : Option (List (List Char × List Char)))
    (request_headers : Option (List (List Char × List Char))) :
    List (List Char × List Char) :=
  let p := btp_rule1 source_platform dest_url referrer request_headers
  let p := dset p (lc "inf_click_id") click_id
  let p :=
    match platform_params with
    | some pp => dUpdate p pp
    | none => p
  let p :=
    if has_app_destination then
      add_mobile_attribution p click_id source_platform creator_handle campaign_slug
    else p
  match param_overrides with
  | some ov => dUpdate p ov
  | none => p

/-- Claim C6: persisted-parameter precedence.  For every link whose
`param_overrides` maps utm_source to "brand_override" and carries no
inf_click_id key (platform passthrough params, as produced by
`extract_platform_params`, only ever use the fixed passthrough key set),
the persisted tracking-parameter set has utm_source "brand_override" —
the override, applied last, beats the platform-derived value — and still
carries inf_click_id equal to the supplied click identifier. -/
theorem build_tracking_params_override_precedence
    (click_id source_platform dest_url referrer creator_handle campaign_slug : List Char)
    (asset_slug : Option (List Char))
    (ov : List (List Char × List Char))
    (has_app_destination : Bool)
    (pp : Option (List (List Char × List Char)))
    (request_headers : Option (List (List Char × List Char)))
    (hnd : (ov.map Prod.fst).Nodup)
    (hus : dget ov (lc "utm_source") = some (lc "brand_override"))
    (hinf : dget ov (lc "inf_click_id") = none)
    (hpp : ∀ e ∈ pp.getD [], e.1 ∈ PLATFORM_PASSTHROUGH_PARAMS) :
    dget (build_tracking_params click_id source_platform dest_url referrer
        creator_handle campaign_slug asset_slug (some ov) has_app_destination pp
        request_headers) (lc "utm_source") = some (lc "brand_override")
    ∧ dget (build_tracking_params click_id source_platform dest_url referrer
        creator_handle campaign_slug asset_slug (some ov) has_app_destination pp
        request_headers) (lc "inf_click_id") = some click_id := by
  constructor
  · simp only [build_tracking_params]
    exact dget_dUpdate_mem ov _ _ _ hnd hus
  · simp only [build_tracking_params]
    rw [dget_dUpdate_not_mem ov _ _ (dget_eq_none_keys ov _ hinf)]
    have hmid : ∀ q : List (List Char × List Char),
        dget q (lc "inf_click_id") = some click_id →
        dget (if has_app_destination then
            add_mobile_attribution q click_id source_platform creator_handle
              campaign_slug
          else q) (lc "inf_click_id") = some click_id := by
      intro q hq
      by_cases ha : has_app_destination
      · rw [if_pos ha, dget_add_mobile _ _ _ _ _ _ (by decide)]
        exact hq
      · rw [if_neg ha]
        exact hq
    apply hmid
    cases pp with
    | none => exact dget_dset_self _ _ _
    | some pp2 =>
      have hne : ∀ e ∈ pp2, e.1 ≠ lc "inf_click_id" := by
        intro e he hcon
        have h2 := hpp e (by simpa using he)
        rw [hcon] at h2
        exact absurd h2 (by decide)
      show dget (dUpdate _ pp2) (lc "inf_click_id") = some click_id
      rw [dget_dUpdate_not_mem pp2 _ _ hne]
      exact dget_dset_self _ _ _

/-- Claim C6 witness: a concrete link with
`param_overrides = [("utm_source", "brand_override")]`. -/
theorem build_tracking_params_override_precedence_witness :
    dget (build_tracking_params (lc "CID1") (lc "instagram") (lc "https://x.example/p")
        [] (lc "creator1") (lc "camp1") none
        (some [(lc "utm_source", lc "brand_override")]) false none none)
      (lc "utm_source") = some (lc "brand_override")
    ∧ dget (build_tracking_params (lc "CID1") (lc "instagram") (lc "https://x.example/p")
        [] (lc "creator1") (lc "camp1") none
        (some [(lc "utm_source", lc "brand_override")]) false none none)
      (lc "inf_click_id") = some (lc "CID1") :=
  build_tracking_params_override_precedence (lc "CID1") (lc "instagram")
    (lc "https://x.example/p") [] (lc "creator1") (lc "camp1") none
    [(lc "utm_source", lc "brand_override")] false none none
    (by decide) (by decide) (by decide) (by intro e he; simp at he)

/-- `urllib.parse.parse_qsl(query, keep_blank_values=True)` (percent
decoding not modeled, see section comment). -/
def parse_qsl (qs : List Char) : List (List Char × List Char) :=
  (splitOnChar '&' qs).filterMap (fun part =>
    if part.isEmpty then none
    else
      match splitFirst '=' part with
      | (k, some v) => some (k, v)
      | (k, none) => some (k, []))

/-- Append one value to a multi-value query dict (used by `parse_qs`). -/
def qsAdd (m : List (List Char × List (List Char))) (k v : List Char) :
    List (List Char × List (List Char)) :=
  match m with
  | [] => [(k, [v])]
  | e :: t => if e.1 = k then (e.1, e.2 ++ [v]) :: t else e :: qsAdd t k v

/-- `urllib.parse.parse_qs(query, keep_blank_values=True)`. -/
def parse_qs (qs : List Char) : List (List Char × List (List Char)) :=
  (parse_qsl qs).foldl (fun acc e => qsAdd acc e.1 e.2) []

/-- `key in existing` on the multi-value query dict. -/
def hasKeyM : List (List Char × List (List Char)) → List Char → Bool
  | [], _ => false
  | e :: t, k => (e.1 = k) || hasKeyM t k

/-- `existing[key] = values` on the multi-value query dict. -/
def setM (m : List (List Char × List (List Char))) (k : List Char)
    (vs : List (List Char)) : List (List Char × List (List Char)) :=
  match m with
  | [] => [(k, vs)]
  | e :: t => if e.1 = k then (k, vs) :: t else e :: setM t k vs

/-- Lookup on the multi-value query dict. -/
def dget2 (m : List (List Char × List (List Char))) (k : List Char) :
    Option (List (List Char)) :=
  match m with
  | [] => none
  | e :: t => if e.1 = k then some e.2 else dget2 t k

/-- Join query pairs with ampersands. -/
def joinAmp : List (List Char) → List Char
  | [] => []
  | [x] => x
  | x :: rest => x ++ '&' :: joinAmp rest

/-- `urllib.parse.urlencode(existing, doseq=True)` (percent encoding not
modeled). -/
def urlencode (m : List (List Char × List (List Char))) : List Char :=
  joinAmp ((m.map (fun e => e.2.map (fun v => e.1 ++ '=' :: v))).flatten)

/-- `urllib.parse.urlunparse` restricted to the modeled URL shapes. -/
def urlunparse (u : UrlParts) : List Char :=
  (if u.scheme.isEmpty && u.netloc.isEmpty then [] else u.scheme ++ lc "://" ++ u.netloc)
    ++ u.path
    ++ (if u.query.isEmpty then [] else '?' :: u.query)
    ++ (if u.fragment.isEmpty then [] else '#' :: u.fragment)

/-- The merged query dict built inside `inject_params_to_url` right before
re-encoding: for each parameter in order, skip it under "only_if_missing"
when the key is already present, else assign it. -/
def inject_query (existing : List (List Char × List (List Char)))
    (params : List (List Char × List Char)) (policy : List Char) :
    List (List Char × List (List Char)) :=
  params.foldl (fun acc kv =>
    if policy = lc "only_if_missing" ∧ hasKeyM acc kv.1 = true then acc
    else setM acc kv.1 [kv.2]) existing

/-- `inject_params_to_url`. -/
def inject_params_to_url (url : List Char) (params : List (List Char × List Char))
    (policy : List Char) : List Char :=
  urlunparse { urlparse url with
    query := urlencode (inject_query (parse_qs (urlparse url).query) params policy) }

/-- The `link` record read by `resolve_destination` (`LinkConfig` of the
specification). -/
structure LinkConfig where
  destination_url : List Char
  ios_deeplink : Option (List Char)
  ios_fallback_url : Option (List Char)
  android_deeplink : Option (List Char)
  android_fallback_url : Option (List Char)
  universal_link : Option (List Char)
  param_overrides : Option (List (List Char × List Char))
  creator_handle : List Char
  campaign_slug : List Char
  asset_slug : Option (List Char)
deriving DecidableEq

/-- `"ios" in os_lower or "iphone" in os_lower or "ipad" in os_lower`. -/
def osIsIOS (osl : List Char) : Bool :=
  hasSubstr osl (lc "ios") || hasSubstr osl (lc "iphone") || hasSubstr osl (lc "ipad")

/-- `bool(link.ios_deeplink or ... or link.universal_link)`. -/
def link_has_app_destination (link : LinkConfig) : Bool :=
  optTruthy link.ios_deeplink || optTruthy link.ios_fallback_url ||
    optTruthy link.android_deeplink || optTruthy link.android_fallback_url ||
    optTruthy link.universal_link

/-- The `base_url` selection of `resolve_destination` (mobile fallback
routing). -/
def resolve_base_url (link : LinkConfig) (is_mobile : Bool)
    (os_family : Option (List Char)) : List Char :=
  if is_mobile && optTruthy os_family then
    let osl := lowerS (os_family.getD [])
    if osIsIOS osl then
      if optTruthy link.universal_link then link.universal_link.getD []
      else if optTruthy link.ios_fallback_url then link.ios_fallback_url.getD []
      else link.destination_url
    else if hasSubstr osl (lc "android") then
      if optTruthy link.universal_link then link.universal_link.getD []
      else if optTruthy link.android_fallback_url then link.android_fallback_url.getD []
      else link.destination_url
    else link.destination_url
  else link.destination_url

/-- A deep link with `inf_click_id` appended. -/
def deeplink_with_cid (dl click_id : List Char) : List Char :=
  dl ++ (if dl.contains '?' then ['&'] else ['?']) ++ lc "inf_click_id=" ++ click_id

/-- `if d: q.update(d)` — update by an optional dict (the empty dict is
falsy, and updating by it is the identity, so both collapse to the match). -/
def applyUpdate (q : List (List Char × List Char))
    (o : Option (List (List Char × List Char))) : List (List Char × List Char) :=
  match o with
  | some x => dUpdate q x
  | none => q

theorem dget_applyUpdate_ne (q : List (List Char × List Char))
    (o : Option (List (List Char × List Char))) (k : List Char)
    (h : ∀ e ∈ o.getD [], e.1 ≠ k) : dget (applyUpdate q o) k = dget q k := by
  cases o with
  | none => rfl
  | some x => exact dget_dUpdate_not_mem x q k (fun e he => h e (by simpa using he))

/-- The `url_params` dict of `resolve_destination`: the click identifier,
platform passthrough params, per-link overrides, and the deep-link
parameter when applicable. -/
def resolve_url_params (link : LinkConfig) (click_id : List Char) (is_mobile : Bool)
    (os_family : Option (List Char))
    (platform_params : Option (List (List Char × List Char))) :
    List (List Char × List Char) :=
  let up := [(lc "inf_click_id", click_id)]
  let up := applyUpdate up platform_params
  let up := applyUpdate up link.param_overrides
  if is_mobile && optTruthy os_family then
    let osl := lowerS (os_family.getD [])
    if osIsIOS osl then
      if optTruthy link.ios_deeplink && optTruthy link.ios_fallback_url then
        dset up (lc "ios_deeplink")
          (deeplink_with_cid (link.ios_deeplink.getD []) click_id)
      else up
    else if hasSubstr osl (lc "android") then
      if optTruthy link.android_deeplink && optTruthy link.android_fallback_url then
        dset up (lc "android_deeplink")
          (deeplink_with_cid (link.android_deeplink.getD []) click_id)
      else up
    else up
  else up

/-- `resolve_destination`: returns (final_url, persisted params). -/
def resolve_destination (link : LinkConfig)
    (click_id source_platform source_medium : List Char)
    (source_detail : Option (List Char)) (is_mobile : Bool)
    (os_family : Option (List Char))
    (platform_params : Option (List (List Char × List Char)))
    (referrer : List Char)
    (request_headers : Option (List (List Char × List Char))) :
    List Char × List (List Char × List Char) :=
  let params := build_tracking_params click_id source_platform link.destination_url
    referrer link.creator_handle link.campaign_slug link.asset_slug
    link.param_overrides (link_has_app_destination link) platform_params
    request_headers
  let base_url := resolve_base_url link is_mobile os_family
  let final_url := inject_params_to_url base_url
    (resolve_url_params link click_id is_mobile os_family platform_params)
    (lc "only_if_missing")
  (final_url, params)

/-- A link whose destination URL already carries an `inf_click_id`
query parameter. -/
def linkPreexisting : LinkConfig :=
  { destination_url := lc "https://shop.example/landing?inf_click_id=OLD",
    ios_deeplink := none, ios_fallback_url := none, android_deeplink := none,
    android_fallback_url := none, universal_link := none, param_overrides := none,
    creator_handle := lc "creator1", campaign_slug := lc "camp1", asset_slug := none }

/-- Claim C3 counterexample: with the freshly minted click identifier
"NEW", the resolved final URL keeps the destination URL's pre-existing
`inf_click_id=OLD` untouched — the minted identifier does NOT win,
because `resolve_destination` merges every URL parameter (the click
identifier included) with the "only_if_missing" policy. -/
theorem resolve_destination_preexisting_click_id_kept :
    (resolve_destination linkPreexisting (lc "NEW") (lc "instagram") (lc "social")
        none false none none [] none).1
      = lc "https://shop.example/landing?inf_click_id=OLD" := by
  decide

theorem hasKeyM_setM_self (m : List (List Char × List (List Char)))
    (k : List Char) (vs : List (List Char)) : hasKeyM (setM m k vs) k = true := by
  induction m with
  | nil => simp [setM, hasKeyM]
  | cons e t ih =>
    unfold setM
    by_cases he : e.1 = k
    · rw [if_pos he]
      simp [hasKeyM]
    · rw [if_neg he]
      unfold hasKeyM
      rw [ih, Bool.or_true]

theorem hasKeyM_setM_ne (m : List (List Char × List (List Char)))
    (k2 : List Char) (vs : List (List Char)) (k : List Char) (h : ¬ k2 = k) :
    hasKeyM (setM m k2 vs) k = hasKeyM m k := by
  induction m with
  | nil => simp [setM, hasKeyM, h]
  | cons e t ih =>
    unfold setM
    by_cases he : e.1 = k2
    · rw [if_pos he]
      unfold hasKeyM
      rw [he]
    · rw [if_neg he]
      unfold hasKeyM
      rw [ih]

theorem dget2_setM_self (m : List (List Char × List (List Char)))
    (k : List Char) (vs : List (List Char)) : dget2 (setM m k vs) k = some vs := by
  induction m with
  | nil => simp [setM, dget2]
  | cons e t ih =>
    unfold setM
    by_cases he : e.1 = k
    · rw [if_pos he]
      simp [dget2]
    · rw [if_neg he]
      unfold dget2
      rw [if_neg he]
      exact ih

theorem dget2_setM_ne (m : List (List Char × List (List Char)))
    (k2 : List Char) (vs : List (List Char)) (k : List Char) (h : ¬ k2 = k) :
    dget2 (setM m k2 vs) k = dget2 m k := by
  induction m with
  | nil => simp [setM, dget2, h]
  | cons e t ih =>
    unfold setM
    by_cases he : e.1 = k2
    · rw [if_pos he]
      unfold dget2
      rw [if_neg h, if_neg (he ▸ h)]
    · rw [if_neg he]
      unfold dget2
      by_cases hek : e.1 = k
      · rw [if_pos hek, if_pos hek]
      · rw [if_neg hek, if_neg hek]
        exact ih

theorem inject_query_preserves : ∀ (params : List (List Char × List Char))
    (acc : List (List Char × List (List Char))) (k : List Char),
    hasKeyM acc k = true →
    dget2 (inject_query acc params (lc "only_if_missing")) k = dget2 acc k := by
  intro params
  induction params with
  | nil => intro acc k h; rfl
  | cons kv rest ih =>
    intro acc k h
    show dget2 (inject_query
      (if lc "only_if_missing" = lc "only_if_missing" ∧ hasKeyM acc kv.1 = true then acc
       else setM acc kv.1 [kv.2]) rest (lc "only_if_missing")) k = dget2 acc k
    by_cases hk : hasKeyM acc kv.1 = true
    · rw [if_pos ⟨rfl, hk⟩]
      exact ih acc k h
    · rw [if_neg (fun hcon => hk hcon.2)]
      have hne : ¬ kv.1 = k := fun hcon => hk (hcon ▸ h)
      rw [ih (setM acc kv.1 [kv.2]) k
        (by rw [hasKeyM_setM_ne _ _ _ _ hne]; exact h)]
      exact dget2_setM_ne _ _ _ _ hne

theorem inject_query_adds : ∀ (params : List (List Char × List Char))
    (acc : List (List Char × List (List Char))) (k v : List Char),
    hasKeyM acc k = false → dget params k = some v →
    dget2 (inject_query acc params (lc "only_if_missing")) k = some [v] := by
  intro params
  induction params with
  | nil =>
    intro acc k v hk hp
    exact absurd hp (by simp [dget])
  | cons kv rest ih =>
    intro acc k v hk hp
    show dget2 (inject_query
      (if lc "only_if_missing" = lc "only_if_missing" ∧ hasKeyM acc kv.1 = true then acc
       else setM acc kv.1 [kv.2]) rest (lc "only_if_missing")) k = some [v]
    by_cases hkv : kv.1 = k
    · have hv : v = kv.2 := by
        unfold dget at hp
        rw [if_pos hkv] at hp
        exact (Option.some.injEq _ _ ▸ hp).symm
      have hcond : ¬ (lc "only_if_missing" = lc "only_if_missing"
          ∧ hasKeyM acc kv.1 = true) := by
        intro hcon
        rw [hkv] at hcon
        rw [hcon.2] at hk
        exact absurd hk (by simp)
      rw [if_neg hcond]
      rw [inject_query_preserves rest _ k
        (by rw [hkv]; exact hasKeyM_setM_self acc k [kv.2])]
      rw [hkv, dget2_setM_self, hv]
    · have hrest : dget rest k = some v := by
        unfold dget at hp
        rw [if_neg hkv] at hp
        exact hp
      by_cases hk2 : hasKeyM acc kv.1 = true
      · rw [if_pos ⟨rfl, hk2⟩]
        exact ih acc k v hk hrest
      · rw [if_neg (fun hcon => hk2 hcon.2)]
        exact ih (setM acc kv.1 [kv.2]) k v
          (by rw [hasKeyM_setM_ne _ _ _ _ hkv]; exact hk) hrest

theorem resolve_url_params_click_id (link : LinkConfig) (click_id : List Char)
    (is_mobile : Bool) (os_family : Option (List Char))
    (pp : Option (List (List Char × List Char)))
    (hpp : ∀ e ∈ pp.getD [], e.1 ≠ lc "inf_click_id")
    (hov : ∀ e ∈ link.param_overrides.getD [], e.1 ≠ lc "inf_click_id") :
    dget (resolve_url_params link click_id is_mobile os_family pp)
      (lc "inf_click_id") = some click_id := by
  have hq : dget (applyUpdate (applyUpdate [(lc "inf_click_id", click_id)] pp)
      link.param_overrides) (lc "inf_click_id") = some click_id := by
    rw [dget_applyUpdate_ne _ _ _ hov, dget_applyUpdate_ne _ _ _ hpp]
    simp [dget]
  have step3 : ∀ q : List (List Char × List Char),
      dget q (lc "inf_click_id") = some click_id →
      dget (if is_mobile && optTruthy os_family then
          if osIsIOS (lowerS (os_family.getD [])) then
            if optTruthy link.ios_deeplink && optTruthy link.ios_fallback_url then
              dset q (lc "ios_deeplink")
                (deeplink_with_cid (link.ios_deeplink.getD []) click_id)
            else q
          else if hasSubstr (lowerS (os_family.getD [])) (lc "android") then
            if optTruthy link.android_deeplink && optTruthy link.android_fallback_url
                then
              dset q (lc "android_deeplink")
                (deeplink_with_cid (link.android_deeplink.getD []) click_id)
            else q
          else q
        else q) (lc "inf_click_id") = some click_id := by
    intro q hq
    by_cases hm : (is_mobile && optTruthy os_family) = true
    · rw [if_pos hm]
      by_cases hios : osIsIOS (lowerS (os_family.getD [])) = true
      · rw [if_pos hios]
        by_cases hdl : (optTruthy link.ios_deeplink
            && optTruthy link.ios_fallback_url) = true
        · rw [if_pos hdl, dget_dset_ne _ _ _ _ (by decide)]
          exact hq
        · rw [if_neg hdl]
          exact hq
      · rw [if_neg hios]
        by_cases hand : hasSubstr (lowerS (os_family.getD [])) (lc "android") = true
        · rw [if_pos hand]
          by_cases hdl : (optTruthy link.android_deeplink
              && optTruthy link.android_fallback_url) = true
          · rw [if_pos hdl, dget_dset_ne _ _ _ _ (by decide)]
            exact hq
          · rw [if_neg hdl]
            exact hq
        · rw [if_neg hand]
          exact hq
    · rw [if_neg hm]
      exact hq
  exact step3 _ hq

/-- The final URL's merged query dict inside `resolve_destination`. -/
def resolve_final_query (link : LinkConfig) (click_id : List Char) (is_mobile : Bool)
    (os_family : Option (List Char)) (pp : Option (List (List Char × List Char))) :
    List (List Char × List (List Char)) :=
  inject_query (parse_qs (urlparse (resolve_base_url link is_mobile os_family)).query)
    (resolve_url_params link click_id is_mobile os_family pp) (lc "only_if_missing")

/-- Claim C3 (amended): every parameter appended to the final redirect URL
— the click identifier and the deep-link parameter included — is merged
with the "only_if_missing" policy: a query parameter already present on
the (mobile-resolved) destination URL always keeps its pre-existing
values, and the freshly minted click identifier reaches the final URL
exactly when the destination carries no `inf_click_id` parameter.  The
final URL is the re-encoding of this merged query dict. -/
theorem resolve_destination_only_if_missing (link : LinkConfig)
    (click_id source_platform source_medium : List Char)
    (source_detail : Option (List Char)) (is_mobile : Bool)
    (os_family : Option (List Char))
    (pp : Option (List (List Char × List Char))) (referrer : List Char)
    (request_headers : Option (List (List Char × List Char)))
    (hpp : ∀ e ∈ pp.getD [], e.1 ≠ lc "inf_click_id")
    (hov : ∀ e ∈ link.param_overrides.getD [], e.1 ≠ lc "inf_click_id") :
    (resolve_destination link click_id source_platform source_medium source_detail
        is_mobile os_family pp referrer request_headers).1
      = urlunparse { urlparse (resolve_base_url link is_mobile os_family) with
          query := urlencode (resolve_final_query link click_id is_mobile os_family pp) }
    ∧ (∀ k, hasKeyM
          (parse_qs (urlparse (resolve_base_url link is_mobile os_family)).query) k
            = true →
        dget2 (resolve_final_query link click_id is_mobile os_family pp) k
          = dget2 (parse_qs
              (urlparse (resolve_base_url link is_mobile os_family)).query) k)
    ∧ (hasKeyM (parse_qs (urlparse (resolve_base_url link is_mobile os_family)).query)
          (lc "inf_click_id") = false →
        dget2 (resolve_final_query link click_id is_mobile os_family pp)
          (lc "inf_click_id") = some [click_id]) := by
  refine ⟨rfl, ?_, ?_⟩
  · intro k hk
    exact inject_query_preserves _ _ k hk
  · intro hk
    exact inject_query_adds _ _ _ click_id hk
      (resolve_url_params_click_id link click_id is_mobile os_family pp hpp hov)

/-- A link whose destination URL carries no `inf_click_id` parameter. -/
def linkClean : LinkConfig :=
  { destination_url := lc "https://shop.example/landing",
    ios_deeplink := none, ios_fallback_url := none, android_deeplink := none,
    android_fallback_url := none, universal_link := none, param_overrides := none,
    creator_handle := lc "creator1", campaign_slug := lc "camp1", asset_slug := none }

/-- Claim C3 (amended) witness: on a clean destination the minted
identifier is appended; the final URL re-encodes the merged query. -/
theorem resolve_destination_only_if_missing_witness :
    dget2 (resolve_final_query linkClean (lc "NEW") false none none)
      (lc "inf_click_id") = some [lc "NEW"]
    ∧ (resolve_destination linkClean (lc "NEW") (lc "instagram") (lc "social") none
        false none none [] none).1
      = urlunparse { urlparse (resolve_base_url linkClean false none) with
          query := urlencode (resolve_final_query linkClean (lc "NEW") false none none) } := by
  have h := resolve_destination_only_if_missing linkClean (lc "NEW") (lc "instagram")
    (lc "social") none false none none [] none
    (by intro e he; simp at he) (by intro e he; simp [linkClean] at he)
  exact ⟨h.2.2 (by decide), h.1⟩
